import Mathlib

/-!
Verification of the jssp-backend solver pipeline (`src/app/solver.py`,
`src/app/validation.py`, `src/app/models.py`) against its natural-language
specification.  Python's dynamically typed values are shallowly embedded as
`PyVal`, Python exceptions as `PyErr`, fallible code as `Except PyErr _`,
and the float arithmetic of the normalizers (all values are images of
integers under `float(..)`, and only `+`, `-`, `max` are applied, which are
exact on such values) as `Int` arithmetic.
-/

namespace JSSP

/-- A Python runtime value, restricted to the shapes the pipeline handles:
integers, booleans, strings and (nested) lists. -/
inductive PyVal where
  | vInt (n : Int)
  | vBool (b : Bool)
  | vStr (s : String)
  | vList (xs : List PyVal)
  deriving Repr

/-- A Python exception as raised by the pipeline: the exception class plus
its message. -/
inductive PyErr where
  | valueError (msg : String)
  | runtimeError (msg : String)
  | typeError (msg : String)
  deriving Repr, DecidableEq

/-- A Python dict with string keys, as an association list (first match wins;
dicts built by the pipeline never repeat a key). -/
abbrev Dict := List (String × PyVal)

/-- `data[key]` lookup on a dict, `none` when the key is absent. -/
def dictGet (d : Dict) (k : String) : Option PyVal :=
  (d.find? (fun p => p.1 == k)).map (·.2)

/-- `data[key] = v` assignment on a dict. -/
def dictSet (d : Dict) (k : String) (v : PyVal) : Dict :=
  if d.any (fun p => p.1 == k) then
    d.map (fun p => if p.1 == k then (k, v) else p)
  else d ++ [(k, v)]

/-- Python `str.strip()`: surrounding whitespace removed (structural on the
character list, so it reduces in the kernel). -/
def pyStrip (s : String) : String :=
  ⟨((s.data.dropWhile Char.isWhitespace).reverse.dropWhile Char.isWhitespace).reverse⟩

/-- Python `str.lower()`. -/
def pyLower (s : String) : String := ⟨s.data.map Char.toLower⟩

/-- Split a character list at every occurrence of `sep` (Python
`str.split(sep)` for a one-character separator: `""` splits to `[""]`). -/
def splitOnChar (cs : List Char) (sep : Char) : List (List Char) :=
  cs.foldr (fun c acc =>
    match acc with
    | [] => [[c]]
    | a :: as => if c = sep then [] :: a :: as else (c :: a) :: as) [[]]

/-- Python `s.split(sep)` for a one-character separator. -/
def pySplit (s : String) (sep : Char) : List String :=
  (splitOnChar s.data sep).map (⟨·⟩)

/-- Decimal digit accumulation for Python's `int(str)`:
`none` as soon as a non-digit appears. -/
def parseDigitsAux : List Char → Nat → Option Nat
  | [], acc => some acc
  | c :: cs, acc =>
    if c.isDigit then parseDigitsAux cs (acc * 10 + (c.toNat - '0'.toNat))
    else none

/-- Python `int(s)` on a string: surrounding whitespace stripped, optional
sign, one or more decimal digits; `none` when the literal is invalid. -/
def pyIntOfString (s : String) : Option Int :=
  match (pyStrip s).data with
  | [] => none
  | '-' :: rest =>
    if rest = [] then none else (parseDigitsAux rest 0).map (fun n => -(n : Int))
  | '+' :: rest =>
    if rest = [] then none else (parseDigitsAux rest 0).map (fun n => (n : Int))
  | cs => (parseDigitsAux cs 0).map (fun n => (n : Int))

/-- Python's `int(x)` builtin on an embedded value. -/
def pyInt : PyVal → Except PyErr Int
  | .vInt n => .ok n
  | .vBool b => .ok (if b then 1 else 0)
  | .vStr s =>
    match pyIntOfString s with
    | some n => .ok n
    | none => .error (.valueError s!"invalid literal for int() with base 10: {s}")
  | .vList _ => .error (.typeError "int() argument must be a string or a number, not list")

/-- Python truthiness `bool(x)` on an embedded value (never raises). -/
def pyTruthy : PyVal → Bool
  | .vInt n => n != 0
  | .vBool b => b
  | .vStr s => s ≠ ""
  | .vList xs => !xs.isEmpty

/-- Sequential effectful map (a Python comprehension over fallible element
conversions): stops at the first raised exception. -/
def pyMapM (f : α → Except PyErr β) : List α → Except PyErr (List β)
  | [] => .ok []
  | x :: xs =>
    match f x with
    | .error e => .error e
    | .ok b =>
      match pyMapM f xs with
      | .error e => .error e
      | .ok bs => .ok (b :: bs)

/-- `solver.py _parse_bool`: permissive boolean coercion.  Booleans pass
through; numbers go through `bool(int(x))`; strings are stripped,
lower-cased and compared against the accepted literal sets; anything else
raises `ValueError`. -/
def parse_bool : PyVal → Except PyErr Bool
  | .vBool b => .ok b
  | .vInt n => .ok (n != 0)
  | .vStr s =>
    let t := pyLower (pyStrip s)
    if t = "true" ∨ t = "t" ∨ t = "1" then .ok true
    else if t = "false" ∨ t = "f" ∨ t = "0" then .ok false
    else .error (.valueError s!"Cannot parse boolean from {s}")
  | .vList _ => .error (.valueError "Cannot parse boolean from a list")

/-! ### Solver backend selection (`solver.py _build_instance`) -/

/-- An engine backend handle as returned by the lookup of the external
MiniZinc driver (opaque to the pipeline beyond its identifier). -/
structure MzSolver where
  ident : String
  deriving Repr, DecidableEq

/-- The solver-name table of `_build_instance`. -/
def solver_map (s : String) : Option String :=
  if s = "chuffed" then some "chuffed"
  else if s = "gecode" then some "gecode"
  else if s = "or-tools" then some "com.google.ortools.sat"
  else none

/-- The runtime environment's `Solver.lookup`: for a backend name it either
raises (`.error`) or returns a solver object / `None` (`.ok`). -/
structure LookupEnv where
  lookup : String → Except PyErr (Option MzSolver)

/-- A built MiniZinc instance: the chosen backend plus the model path. -/
structure MzInstance where
  solver : MzSolver
  modelPath : String
  deriving Repr, DecidableEq

/-- `solver.py _build_instance`: maps the configured solver name through
`solver_map` (unknown name: `ValueError`), looks the backend up, falls back
to `gecode` then `chuffed` only when that lookup raises, and raises
`RuntimeError` mentioning the missing MiniZinc installation when the
lookup chain yields no solver object. -/
def build_instance (env : LookupEnv) (modelPath : String) (cfgSolver : String) :
    Except PyErr MzInstance :=
  match solver_map cfgSolver with
  | none => .error (.valueError s!"Unsupported solver: {cfgSolver}")
  | some name =>
    let solverRes : Except PyErr (Option MzSolver) :=
      match env.lookup name with
      | .ok v => .ok v
      | .error _ =>
        match env.lookup "gecode" with
        | .error e => .error e
        | .ok (some s) => .ok (some s)
        | .ok none => env.lookup "chuffed"
    match solverRes with
    | .error e => .error e
    | .ok none =>
      .error (.runtimeError
        (s!"Solver '{cfgSolver}' not found. " ++
          "Ensure MiniZinc is installed with the required solver."))
    | .ok (some s) => .ok ⟨s, modelPath⟩

/-! ### Instance schema validation (`solver.py _require_*`) -/

/-- `isinstance(x, list)`. -/
def isVList : PyVal → Bool
  | .vList _ => true
  | _ => false

/-- The elements of a value known to be a list (`[]` otherwise; only used
under an `isVList` guard). -/
def rowItems : PyVal → List PyVal
  | .vList xs => xs
  | _ => []

/-- `solver.py _require_int`. -/
def require_int (data : Dict) (key : String) : Except PyErr Int :=
  match dictGet data key with
  | none => .error (.valueError s!"Missing required key '{key}'")
  | some v =>
    match pyInt v with
    | .ok n => .ok n
    | .error _ => .error (.valueError s!"Key '{key}' must be an integer")

/-- `solver.py _require_1d_int`. -/
def require_1d_int (data : Dict) (key : String) (size : Int) : Except PyErr (List Int) :=
  match dictGet data key with
  | none => .error (.valueError s!"Missing required key '{key}'")
  | some (.vList arr) =>
    if (arr.length : Int) ≠ size then
      .error (.valueError s!"Key '{key}' must have length {size}")
    else
      match pyMapM pyInt arr with
      | .ok xs => .ok xs
      | .error _ => .error (.valueError s!"Key '{key}' must contain integers")
  | some _ => .error (.valueError s!"Key '{key}' must be a 1D list of int")

/-- `solver.py _require_2d_int`: accepts a properly shaped nested list
(coercion failures caught and re-raised as `ValueError`), or a flat list of
length `rows*cols` reshaped row-major (coercion failures propagate as the
underlying exception, matching the absent `try` in the source); any other
shape raises `ValueError` naming the expected shape. -/
def require_2d_int (data : Dict) (key : String) (rows cols : Int) :
    Except PyErr (List (List Int)) :=
  match dictGet data key with
  | none => .error (.valueError s!"Missing required key '{key}'")
  | some (.vList ms) =>
    if !ms.isEmpty && ms.all isVList then
      if (ms.length : Int) != rows || ms.any (fun r => ((rowItems r).length : Int) != cols) then
        .error (.valueError s!"Key '{key}' must be a 2D list with shape [{rows}][{cols}]")
      else
        match pyMapM (fun r => pyMapM pyInt (rowItems r)) ms with
        | .ok m => .ok m
        | .error _ => .error (.valueError s!"Key '{key}' must contain integers")
    else if rows * cols = (ms.length : Int) then
      pyMapM (fun i => pyMapM (fun j => pyInt (ms.getD (i * cols.toNat + j) (.vStr "")))
        (List.range cols.toNat)) (List.range rows.toNat)
    else .error (.valueError s!"Key '{key}' must be a 2D list of ints with shape [{rows}][{cols}]")
  | some _ => .error (.valueError s!"Key '{key}' must be a 2D list of ints with shape [{rows}][{cols}]")

/-- `solver.py _require_2d_bool`: nested lists go through Python's (total)
`bool(..)` truthiness; flat lists go through `_parse_bool`, whose
`ValueError` propagates uncaught. -/
def require_2d_bool (data : Dict) (key : String) (rows cols : Int) :
    Except PyErr (List (List Bool)) :=
  match dictGet data key with
  | none => .error (.valueError s!"Missing required key '{key}'")
  | some (.vList ms) =>
    if !ms.isEmpty && ms.all isVList then
      if (ms.length : Int) != rows || ms.any (fun r => ((rowItems r).length : Int) != cols) then
        .error (.valueError s!"Key '{key}' must be a 2D list with shape [{rows}][{cols}]")
      else .ok (ms.map (fun r => (rowItems r).map pyTruthy))
    else if rows * cols = (ms.length : Int) then
      pyMapM (fun i => pyMapM (fun j => parse_bool (ms.getD (i * cols.toNat + j) (.vStr "")))
        (List.range cols.toNat)) (List.range rows.toNat)
    else .error (.valueError s!"Key '{key}' must be a 2D list of bool with shape [{rows}][{cols}]")
  | some _ => .error (.valueError s!"Key '{key}' must be a 2D list of bool with shape [{rows}][{cols}]")

/-! ### Result extraction (`solver.py _require_result_*`) -/

/-- The engine's answer: the reported status plus the decision-variable
bindings on the solution object. -/
structure EngineResult where
  hasSolution : Bool
  vars : List (String × PyVal)

/-- `hasattr(result.solution, key)` / `result[key]` access. -/
def resGet (r : EngineResult) (k : String) : Option PyVal :=
  (r.vars.find? (fun p => p.1 == k)).map (·.2)

/-- `solver.py _require_result_int`. -/
def require_result_int (r : EngineResult) (key : String) : Except PyErr Int :=
  match resGet r key with
  | none => .error (.runtimeError s!"Result missing key '{key}'")
  | some v =>
    match pyInt v with
    | .ok n => .ok n
    | .error _ => .error (.runtimeError s!"Result key '{key}' is not an int")

/-- Python list subscription `v[i]` (raises on a non-list or a bad index). -/
def pyIndex (v : PyVal) (i : Nat) : Except PyErr PyVal :=
  match v with
  | .vList xs =>
    match xs.get? i with
    | some x => .ok x
    | none => .error (.typeError "list index out of range")
  | _ => .error (.typeError "object is not subscriptable")

/-- `isinstance(val, list) and val and isinstance(val[0], list)`. -/
def headIsList : PyVal → Bool
  | .vList (x :: _) => isVList x
  | _ => false

/-- `solver.py _require_result_2d`: nested or flat extraction inside one
`try`; any failure inside is re-raised as `RuntimeError` naming the
expected shape. -/
def require_result_2d (r : EngineResult) (key : String) (rows cols : Int) :
    Except PyErr (List (List Int)) :=
  match resGet r key with
  | none => .error (.runtimeError s!"Result missing key '{key}'")
  | some val =>
    let attempt : Except PyErr (List (List Int)) :=
      if headIsList val then
        pyMapM (fun i => pyMapM (fun j => do pyInt (← pyIndex (← pyIndex val i) j))
          (List.range cols.toNat)) (List.range rows.toNat)
      else if isVList val && ((lenOf val : Int) == rows * cols) then
        pyMapM (fun i => pyMapM (fun j => do pyInt (← pyIndex val (i * cols.toNat + j)))
          (List.range cols.toNat)) (List.range rows.toNat)
      else .error (.valueError s!"Expected flat list of length {rows * cols}")
    match attempt with
    | .ok m => .ok m
    | .error _ =>
      .error (.runtimeError s!"Result key '{key}' is not a 2D int matrix with shape [{rows}][{cols}]")
where
  lenOf : PyVal → Nat
    | .vList xs => xs.length
    | _ => 0

/-! ### Domain schedule representation (`models.py`) -/

/-- `models.py Machine`. -/
structure Machine where
  id : String
  name : String
  deriving Repr, DecidableEq

/-- `models.py Operation` (temporal fields as exact integers). -/
structure Operation where
  jobId : String
  machineId : String
  opId : String
  start : Int
  «end» : Int
  duration : Int
  deriving Repr, DecidableEq

/-- `models.py MaintenanceWindow`. -/
structure MaintenanceWindow where
  machineId : String
  start : Int
  «end» : Int
  duration : Int
  deriving Repr, DecidableEq

/-- `models.py Solution`. -/
structure Solution where
  makespan : Int
  machines : List Machine
  operations : List Operation
  maintenanceWindows : Option (List MaintenanceWindow) := none
  stats : List (String × Int)
  deriving Repr, DecidableEq

/-! ### Result normalization (`solver.py _run_jobshop_tardanza` /
`_run_jobshop_mantenimiento`, lines 214-267 and 325-377) -/

/-- Python's `max(xs, default=dflt)`: the default only applies to an empty
sequence, it is not a lower bound. -/
def pyMaxD (l : List Int) (dflt : Int) : Int :=
  match l with
  | [] => dflt
  | x :: xs => xs.foldl max x

/-- Row-major matrix access `m[i][j]` (indices are in range at every call
site, the shapes having been established by `_require_2d_int` /
`_require_result_2d`). -/
def get2 (m : List (List Int)) (i j : Nat) : Int := (m.getD i []).getD j 0

/-- Boolean matrix access `m[i][j]`. -/
def get2b (m : List (List Bool)) (i j : Nat) : Bool := (m.getD i []).getD j false

/-- Python `range(1, n + 1)` (empty when `n ≤ 0`). -/
def range1 (n : Int) : List Nat := (List.range n.toNat).map (· + 1)

/-- `machines = [Machine(id=f"M{j}", name=f"M{j}") for j in range(1, tasks + 1)]`,
shared verbatim by both runners. -/
def mkMachines (tasks : Int) : List Machine :=
  (range1 tasks).map (fun j => { id := s!"M{j}", name := s!"M{j}" })

/-- The operation-building double loop, shared verbatim by both runners
(starts matrix `s`/`S`, durations matrix `d`/`PROC_TIME`). -/
def buildOps (jobs tasks : Int) (s d : List (List Int)) : List Operation :=
  (range1 jobs).flatMap (fun i =>
    (range1 tasks).map (fun j =>
      let start := get2 s (i - 1) (j - 1)
      let duration := get2 d (i - 1) (j - 1)
      { jobId := s!"J{i}", machineId := s!"M{j}", opId := s!"J{i}-{j}",
        start := start, «end» := start + duration, duration := duration }))

/-- The tardiness-metric loop of `_run_jobshop_tardanza` (lines 237-260):
accumulates `(tardanza_total, jobs_tardios, max_tardanza)` over the jobs and
packs the stats dict. -/
def tardanzaStats (jobs : Int) (due_dates : List Int) (ops : List Operation) (w : Int) :
    List (String × Int) :=
  let final := (range1 jobs).foldl
    (fun (acc : Int × Int × Int) i =>
      let job_ops := ops.filter (fun op => op.jobId == s!"J{i}")
      let completion := pyMaxD (job_ops.map (fun op => op.«end»)) 0
      let due := due_dates.getD (i - 1) 0
      let tardiness := max 0 (completion - due)
      if 0 < tardiness then (acc.1 + tardiness, acc.2.1 + 1, max acc.2.2 tardiness)
      else acc)
    (0, 0, 0)
  [("w", w), ("tardanza_total", final.1), ("jobs_tardios", final.2.1),
   ("max_tardanza", final.2.2)]

/-- The normalization tail of `_run_jobshop_tardanza`: machines, operations,
`makespan = max(op.end, default=0)`, tardiness stats, and the
`(solution, stats)` return value. -/
def tardanzaSolution (jobs tasks : Int) (s d : List (List Int)) (due_dates : List Int)
    (w : Int) : Solution × List (String × Int) :=
  let machines := mkMachines tasks
  let ops := buildOps jobs tasks s d
  let makespan := pyMaxD (ops.map (fun op => op.«end»)) 0
  let stats := tardanzaStats jobs due_dates ops w
  ({ makespan := makespan, machines := machines, operations := ops, stats := stats }, stats)

/-- The maintenance-window extraction loop of `_run_jobshop_mantenimiento`
(lines 344-364): `(maint_windows, maint_time, windows)` accumulated over all
`(m, k)` cells. -/
def maintWindowsFold (TASKS MAX_MW : Int) (MAINT_ACTIVE : List (List Bool))
    (MAINT_START MAINT_END : List (List Int)) :
    Int × Int × List MaintenanceWindow :=
  (List.range TASKS.toNat).foldl (fun acc m =>
    (List.range MAX_MW.toNat).foldl (fun (acc : Int × Int × List MaintenanceWindow) k =>
      if get2b MAINT_ACTIVE m k then
        let start := get2 MAINT_START m k
        let e := get2 MAINT_END m k
        let duration := max 0 (e - start)
        (acc.1 + 1, acc.2.1 + duration,
          acc.2.2 ++ [{ machineId := s!"M{m + 1}", start := start, «end» := e,
                        duration := duration }])
      else acc) acc) (0, 0, [])

/-- The normalization tail of `_run_jobshop_mantenimiento`: machines,
operations from `S`/`PROC_TIME`, maintenance windows and their stats, and
`makespan = END` taken verbatim from the engine. -/
def maintSolution (JOBS TASKS MAX_MW : Int) (PROC_TIME : List (List Int))
    (MAINT_START MAINT_END : List (List Int)) (MAINT_ACTIVE : List (List Bool))
    (S : List (List Int)) (END : Int) : Solution × List (String × Int) :=
  let machines := mkMachines TASKS
  let ops := buildOps JOBS TASKS S PROC_TIME
  let acc := maintWindowsFold TASKS MAX_MW MAINT_ACTIVE MAINT_START MAINT_END
  let stats := [("maint_windows", acc.1), ("maint_time", acc.2.1)]
  ({ makespan := END, machines := machines, operations := ops,
     maintenanceWindows := if acc.2.2.isEmpty then none else some acc.2.2,
     stats := stats }, stats)

/-! ### The variant runners with their temp-model-file lifecycle -/

/-- Observable temp-file events of one runner invocation. -/
inductive Ev where
  | createTemp
  | unlinkTemp
  deriving Repr, DecidableEq

/-- The environment-dependent steps of a runner: the outcome of
`_build_modified_model` (reading the template and writing the temp file),
of `_build_instance`, and of `_solve_instance`. -/
structure Oracle where
  buildModel : Except PyErr Unit
  buildInstance : Except PyErr Unit
  solve : Except PyErr EngineResult

/-- The `try .. finally: os.unlink(..)` of both runners: the cleanup (whose
own failure Python swallows with `except Exception: pass`) runs exactly once
whether the body returns or raises. -/
def tryFinallyUnlink (body : Except PyErr α) : Except PyErr α × List Ev :=
  match body with
  | .ok a => (.ok a, [Ev.unlinkTemp])
  | .error e => (.error e, [Ev.unlinkTemp])

/-- The message of the `RuntimeError` raised when the engine reports no
solution (lines 208 and 320). -/
def infeasibleMsg : String := "MiniZinc did not produce a feasible solution"

/-- `solver.py _run_jobshop_tardanza`: schema validation, temp model file
creation, instance building, solving, result extraction and normalization,
paired with the list of temp-file events. -/
def run_jobshop_tardanza (data : Dict) (orc : Oracle) :
    Except PyErr (Solution × List (String × Int)) × List Ev :=
  match require_int data "jobs" with
  | .error e => (.error e, [])
  | .ok jobs =>
  match require_int data "tasks" with
  | .error e => (.error e, [])
  | .ok tasks =>
  match require_2d_int data "d" jobs tasks with
  | .error e => (.error e, [])
  | .ok d =>
  match require_1d_int data "weights" jobs with
  | .error e => (.error e, [])
  | .ok _weights =>
  match require_1d_int data "due_dates" jobs with
  | .error e => (.error e, [])
  | .ok due_dates =>
  match orc.buildModel with
  | .error e => (.error e, [])
  | .ok _ =>
    let body : Except PyErr (Solution × List (String × Int)) :=
      match orc.buildInstance with
      | .error e => .error e
      | .ok _ =>
        match orc.solve with
        | .error e => .error e
        | .ok result =>
          if !result.hasSolution then .error (.runtimeError infeasibleMsg)
          else
            match require_result_2d result "s" jobs tasks with
            | .error e => .error e
            | .ok s =>
              match require_result_int result "w" with
              | .error e => .error e
              | .ok w => .ok (tardanzaSolution jobs tasks s d due_dates w)
    let out := tryFinallyUnlink body
    (out.1, Ev.createTemp :: out.2)

/-- `solver.py _run_jobshop_mantenimiento`: same pipeline for the
maintenance-aware variant. -/
def run_jobshop_mantenimiento (data : Dict) (orc : Oracle) :
    Except PyErr (Solution × List (String × Int)) × List Ev :=
  match require_int data "JOBS" with
  | .error e => (.error e, [])
  | .ok JOBS =>
  match require_int data "TASKS" with
  | .error e => (.error e, [])
  | .ok TASKS =>
  match require_2d_int data "PROC_TIME" JOBS TASKS with
  | .error e => (.error e, [])
  | .ok PROC_TIME =>
  match require_int data "MAX_MAINT_WINDOWS" with
  | .error e => (.error e, [])
  | .ok MAX_MW =>
  match require_2d_int data "MAINT_START" TASKS MAX_MW with
  | .error e => (.error e, [])
  | .ok MAINT_START =>
  match require_2d_int data "MAINT_END" TASKS MAX_MW with
  | .error e => (.error e, [])
  | .ok MAINT_END =>
  match require_2d_bool data "MAINT_ACTIVE" TASKS MAX_MW with
  | .error e => (.error e, [])
  | .ok MAINT_ACTIVE =>
  match orc.buildModel with
  | .error e => (.error e, [])
  | .ok _ =>
    let body : Except PyErr (Solution × List (String × Int)) :=
      match orc.buildInstance with
      | .error e => .error e
      | .ok _ =>
        match orc.solve with
        | .error e => .error e
        | .ok result =>
          if !result.hasSolution then .error (.runtimeError infeasibleMsg)
          else
            match require_result_2d result "S" JOBS TASKS with
            | .error e => .error e
            | .ok S =>
              match require_result_int result "END" with
              | .error e => .error e
              | .ok END =>
                .ok (maintSolution JOBS TASKS MAX_MW PROC_TIME MAINT_START MAINT_END
                  MAINT_ACTIVE S END)
    let out := tryFinallyUnlink body
    (out.1, Ev.createTemp :: out.2)

/-! ### Solution validation (`validation.py validate_solution`) -/

/-- The per-operation loop of `validate_solution`: checks each operation's
time bounds, machine reference and `(jobId, opId)` freshness, threading the
`seen_ops` set and the running `max_end`. -/
def checkOps (machine_set : List String) :
    List Operation → List (String × String) → Int → Except PyErr Int
  | [], _, max_end => .ok max_end
  | op :: rest, seen, max_end =>
    if op.start < 0 ∨ op.«end» < 0 ∨ op.duration < 0 then
      .error (.valueError "Operation times must be >= 0")
    else if op.«end» < op.start then
      .error (.valueError "Operation end must be >= start")
    else if op.machineId ∉ machine_set then
      .error (.valueError s!"Operation references unknown machineId: {op.machineId}")
    else if (op.jobId, op.opId) ∈ seen then
      .error (.valueError
        s!"Duplicate operation id within job scope: (jobId={op.jobId}, opId={op.opId})")
    else
      checkOps machine_set rest ((op.jobId, op.opId) :: seen)
        (if max_end < op.«end» then op.«end» else max_end)

/-- `validation.py validate_solution`: duplicate machine ids, the
per-operation checks, then `makespan >= max_end`.  Read-only: value in,
`Ok`/`ValueError` out. -/
def validate_solution (sol : Solution) : Except PyErr Unit :=
  let machine_ids := sol.machines.map (·.id)
  if machine_ids.length ≠ machine_ids.dedup.length then
    .error (.valueError "Duplicate machine id detected in machines")
  else
    match checkOps machine_ids sol.operations [] 0 with
    | .error e => .error e
    | .ok max_end =>
      if sol.makespan < max_end then
        .error (.valueError "solution.makespan must be >= max end across operations")
      else .ok ()

/-! ### DZN-like parsing (`solver.py _parse_dzn`, `_split_array_values`) -/

/-- `re.sub(r"%[^\n]*", "", text)`: drop everything from each `%` to the
end of its line (the newline itself is kept). -/
def stripComments (s : String) : String :=
  ⟨(s.data.foldl (fun (acc : List Char × Bool) c =>
      if acc.2 then (if c = '\n' then (acc.1 ++ ['\n'], false) else acc)
      else if c = '%' then (acc.1, true) else (acc.1 ++ [c], false)) ([], false)).1⟩

/-- `re.sub(r"\s+", " ", s)`: collapse every whitespace run to one space. -/
def collapseWs (s : String) : String :=
  ⟨(s.data.foldl (fun (acc : List Char × Bool) c =>
      if c.isWhitespace then (if acc.2 then acc else (acc.1 ++ [' '], true))
      else (acc.1 ++ [c], false)) ([], false)).1⟩

/-- Python `stmt.split("=", 1)`: `none` when the statement has no `=`
(the statement is then skipped), otherwise the parts before and after the
first `=`. -/
def splitEq (stmt : String) : Option (String × String) :=
  if stmt.data.contains '=' then
    some (⟨stmt.data.takeWhile (fun c => c != '=')⟩,
          ⟨(stmt.data.dropWhile (fun c => c != '=')).tail⟩)
  else none

/-- Token classification of `_split_array_values`: boolean literal, else
integer, else the raw token kept as a string. -/
def classifyToken (t : String) : PyVal :=
  let tl := pyLower t
  if tl = "true" ∨ tl = "false" then .vBool (tl == "true")
  else
    match pyIntOfString t with
    | some n => .vInt n
    | none => .vStr t

/-- `solver.py _split_array_values`: whitespace normalized, split on commas,
empty tokens dropped, each token classified. -/
def split_array_values (items_str : String) : List PyVal :=
  let s := collapseWs (pyStrip items_str)
  (((pySplit s ',').map pyStrip).filter (fun t => t ≠ "")).map classifyToken

/-- Case-insensitive literal prefix: consume `p` from the front of `cs`. -/
def dropLitCI : List Char → List Char → Option (List Char)
  | [], cs => some cs
  | _ :: _, [] => none
  | p :: ps, c :: cs => if c.toLower = p.toLower then dropLitCI ps cs else none

/-- Leading-whitespace drop (`\s*`). -/
def dropWs (cs : List Char) : List Char := cs.dropWhile Char.isWhitespace

/-- Trailing-whitespace drop. -/
def rstripWs (cs : List Char) : List Char := (dropWs cs.reverse).reverse

/-- Consume one `[^,]+,` dimension argument of `array2d(..)`. -/
def consumeDimArg (cs : List Char) : Option (List Char) :=
  if (cs.takeWhile (fun c => c != ',')).isEmpty then none
  else
    match cs.dropWhile (fun c => c != ',') with
    | ',' :: rest => some rest
    | _ => none

/-- Remove a required final character. -/
def chopLast (cs : List Char) (c : Char) : Option (List Char) :=
  match cs.reverse with
  | x :: r => if x = c then some r.reverse else none
  | [] => none

/-- The `array2d\s*\(\s*[^,]+,\s*[^,]+,\s*\[(.*)\]\s*\)\s*$` match
(IGNORECASE, DOTALL) of `_parse_dzn`, returning the flat payload group. -/
def matchArray2d (v : String) : Option String := do
  let cs ← dropLitCI "array2d".data v.data
  let cs ← match dropWs cs with | '(' :: rest => some rest | _ => none
  let cs ← consumeDimArg (dropWs cs)
  let cs ← consumeDimArg (dropWs cs)
  let cs ← match dropWs cs with | '[' :: rest => some rest | _ => none
  let t1 ← chopLast (rstripWs cs) ')'
  let t2 ← chopLast (rstripWs t1) ']'
  some ⟨t2⟩

/-- The `\[\s*(.*)\s*\]\s*$` match of `_parse_dzn` (no DOTALL: the captured
core may not contain a newline), returning the bracketed payload. -/
def match1d (v : String) : Option String := do
  let cs ← match v.data with | '[' :: rest => some rest | _ => none
  let inner ← chopLast (rstripWs cs) ']'
  let core := rstripWs (dropWs inner)
  if core.contains '\n' then none else some ⟨core⟩

/-- One `key = value` statement of `_parse_dzn`: statements without `=` are
skipped; values are classified as `array2d(..)` payload, bracketed 1-D
array, boolean, integer, and finally kept as a raw string. -/
def parse_dzn_stmt (d : Dict) (stmt : String) : Dict :=
  match splitEq stmt with
  | none => d
  | some kv =>
    let key := pyStrip kv.1
    let val := pyStrip kv.2
    match matchArray2d val with
    | some flat => dictSet d key (.vList (split_array_values flat))
    | none =>
      match match1d val with
      | some items => dictSet d key (.vList (split_array_values items))
      | none =>
        if pyLower val = "true" ∨ pyLower val = "false" then
          dictSet d key (.vBool (pyLower val == "true"))
        else
          match pyIntOfString val with
          | some n => dictSet d key (.vInt n)
          | none => dictSet d key (.vStr val)

/-- `solver.py _parse_dzn`: comments removed, split on `;`, each non-blank
statement folded into the dict.  Total by construction: every input yields
a mapping. -/
def parse_dzn (text : String) : Dict :=
  let no_comments := stripComments text
  let statements := ((pySplit no_comments ';').map pyStrip).filter (fun s => s ≠ "")
  statements.foldl parse_dzn_stmt []

/-! ### Injectivity of the positional id scheme (`f"M{j}"`, `f"J{i}"`,
`f"J{i}-{j}"`) -/

/-- The decimal digit list of `n`, structured like `Nat.toDigitsCore`'s
output. -/
def digitsOf (n : Nat) : List Char :=
  if h : n / 10 = 0 then [Nat.digitChar (n % 10)]
  else digitsOf (n / 10) ++ [Nat.digitChar (n % 10)]
termination_by n
decreasing_by
  have h10 : 10 ≤ n := by
    by_contra hlt
    exact h (Nat.div_eq_of_lt (by omega))
  exact Nat.div_lt_self (by omega) (by omega)

theorem digitsOf_pos {n : Nat} (h : n / 10 = 0) :
    digitsOf n = [Nat.digitChar (n % 10)] := by
  rw [digitsOf, dif_pos h]

theorem digitsOf_neg {n : Nat} (h : ¬ n / 10 = 0) :
    digitsOf n = digitsOf (n / 10) ++ [Nat.digitChar (n % 10)] := by
  rw [digitsOf]
  rw [dif_neg h]

theorem digitsOf_eq_toDigitsCore (fuel : Nat) :
    ∀ n ds, n < fuel → Nat.toDigitsCore 10 fuel n ds = digitsOf n ++ ds := by
  induction fuel with
  | zero => intro n ds h; omega
  | succ fuel ih =>
    intro n ds h
    by_cases h0 : n / 10 = 0
    · rw [Nat.toDigitsCore]
      simp only [h0, if_pos]
      rw [digitsOf_pos h0]
      rfl
    · rw [Nat.toDigitsCore]
      simp only [h0, if_false]
      have h10 : 10 ≤ n := by
        by_contra hlt
        exact h0 (Nat.div_eq_of_lt (by omega))
      have hlt : n / 10 < fuel := by
        have := Nat.div_lt_self (show 0 < n by omega) (show 1 < 10 by omega)
        omega
      rw [ih (n / 10) (Nat.digitChar (n % 10) :: ds) hlt]
      rw [digitsOf_neg h0]
      simp

/-- Decimal value of a digit character. -/
def charVal (c : Char) : Nat := c.toNat - '0'.toNat

theorem charVal_digitChar (m : Nat) (h : m < 10) :
    charVal (Nat.digitChar m) = m := by
  interval_cases m <;> rfl

theorem foldl_digitsOf (n : Nat) :
    ∀ acc : Nat, (digitsOf n).foldl (fun a c => a * 10 + charVal c) acc
      = acc * 10 ^ (digitsOf n).length + n := by
  induction n using Nat.strong_induction_on with
  | _ n ih =>
    intro acc
    by_cases h0 : n / 10 = 0
    · have hn : n < 10 := by
        by_contra hge
        have h1 : 1 ≤ n / 10 := (Nat.one_le_div_iff (by omega)).mpr (by omega)
        omega
      rw [digitsOf_pos h0]
      simp [charVal_digitChar (n % 10) (Nat.mod_lt _ (by omega))]
      omega
    · have h10 : 10 ≤ n := by
        by_contra hlt
        exact h0 (Nat.div_eq_of_lt (by omega))
      have hlt : n / 10 < n := Nat.div_lt_self (by omega) (by omega)
      rw [digitsOf_neg h0]
      rw [List.foldl_append]
      rw [ih (n / 10) hlt acc]
      simp [charVal_digitChar (n % 10) (Nat.mod_lt _ (by omega)), pow_succ,
        ← Nat.mul_assoc]
      omega

theorem digitsOf_inj {m n : Nat} (h : digitsOf m = digitsOf n) : m = n := by
  have hm := foldl_digitsOf m 0
  have hn := foldl_digitsOf n 0
  rw [h] at hm
  simp only [Nat.zero_mul, Nat.zero_add] at hm hn
  omega

theorem natRepr_inj {m n : Nat} (h : Nat.repr m = Nat.repr n) : m = n := by
  apply digitsOf_inj
  have h2 : (Nat.toDigits 10 m).asString = (Nat.toDigits 10 n).asString := h
  unfold Nat.toDigits at h2
  rw [digitsOf_eq_toDigitsCore (m + 1) m [] (by omega),
      digitsOf_eq_toDigitsCore (n + 1) n [] (by omega)] at h2
  have h3 := congrArg String.data h2
  simpa [List.asString] using h3

theorem mkM_data (j : Nat) : (s!"M{j}").data = 'M' :: (Nat.repr j).data := by
  show ("M".data ++ ((Nat.repr j).data ++ ("" : String).data))
    = 'M' :: (Nat.repr j).data
  simp

theorem mkJ_data (i : Nat) : (s!"J{i}").data = 'J' :: (Nat.repr i).data := by
  show ("J".data ++ ((Nat.repr i).data ++ ("" : String).data))
    = 'J' :: (Nat.repr i).data
  simp

theorem mkOp_data (i j : Nat) : (s!"J{i}-{j}").data
    = 'J' :: ((Nat.repr i).data ++ '-' :: (Nat.repr j).data) := by
  show ((("J".data ++ (Nat.repr i).data) ++ "-".data) ++ (Nat.repr j).data)
        ++ ("" : String).data
    = 'J' :: ((Nat.repr i).data ++ '-' :: (Nat.repr j).data)
  simp

theorem mkM_inj {a b : Nat} (h : (s!"M{a}" : String) = s!"M{b}") : a = b := by
  apply natRepr_inj
  have hd := congrArg String.data h
  rw [mkM_data, mkM_data] at hd
  have : (Nat.repr a).data = (Nat.repr b).data := by
    injection hd
  calc Nat.repr a = ⟨(Nat.repr a).data⟩ := rfl
    _ = ⟨(Nat.repr b).data⟩ := by rw [this]
    _ = Nat.repr b := rfl

theorem mkJ_inj {a b : Nat} (h : (s!"J{a}" : String) = s!"J{b}") : a = b := by
  apply natRepr_inj
  have hd := congrArg String.data h
  rw [mkJ_data, mkJ_data] at hd
  have : (Nat.repr a).data = (Nat.repr b).data := by injection hd
  calc Nat.repr a = ⟨(Nat.repr a).data⟩ := rfl
    _ = ⟨(Nat.repr b).data⟩ := by rw [this]
    _ = Nat.repr b := rfl

/-- `f"J{i}-{j}"` is injective in `j` for a fixed job index `i`. -/
theorem mkOp_inj_right {i b d : Nat} (h : (s!"J{i}-{b}" : String) = s!"J{i}-{d}") :
    b = d := by
  apply natRepr_inj
  have hd := congrArg String.data h
  rw [mkOp_data, mkOp_data] at hd
  have hcore : (Nat.repr i).data ++ '-' :: (Nat.repr b).data
      = (Nat.repr i).data ++ '-' :: (Nat.repr d).data := by injection hd
  have hbd : (Nat.repr b).data = (Nat.repr d).data := by
    have := List.append_cancel_left hcore
    injection this
  calc Nat.repr b = ⟨(Nat.repr b).data⟩ := rfl
    _ = ⟨(Nat.repr d).data⟩ := by rw [hbd]
    _ = Nat.repr d := rfl

/-! generic list access lemmas -/

theorem getD_append_lt {α : Type} (l tl : List α) (j : Nat) (d : α) (h : j < l.length) :
    (l ++ tl).getD j d = l.getD j d := by
  simp [List.getD, List.getElem?_append, h]

theorem getD_append_ge {α : Type} (l tl : List α) (j : Nat) (d : α) (h : l.length ≤ j) :
    (l ++ tl).getD j d = tl.getD (j - l.length) d := by
  simp [List.getD, List.getElem?_append_right, h]

theorem getD_map_lt {α β : Type} (f : α → β) (l : List α) (j : Nat) (d : β) (d' : α)
    (h : j < l.length) : (l.map f).getD j d = f (l.getD j d') := by
  simp [List.getD, List.getElem?_eq_getElem, h]

theorem getD_range_eq (l : List Int) :
    (List.range l.length).map (fun j => l.getD j 0) = l := by
  induction l with
  | nil => rfl
  | cons x xs ih =>
    rw [List.length_cons, List.range_succ_eq_map, List.map_cons, List.map_map]
    have hc : ((fun j => (x :: xs).getD j 0) ∘ Nat.succ) = (fun j => xs.getD j 0) := by
      funext j
      simp [List.getD_cons_succ]
    rw [hc, ih]
    simp [List.getD_cons_zero]

/-! pyMapM lemmas -/

theorem pyMapM_append (f : α → Except PyErr β) (xs ys : List α) :
    pyMapM f (xs ++ ys) =
      match pyMapM f xs with
      | .error e => .error e
      | .ok bs =>
        match pyMapM f ys with
        | .error e => .error e
        | .ok cs => .ok (bs ++ cs) := by
  induction xs with
  | nil =>
    simp only [List.nil_append, pyMapM]
    cases pyMapM f ys <;> rfl
  | cons x xs ih =>
    have halign : xs ++ ys = xs.append ys := rfl
    rw [halign] at ih
    simp only [List.cons_append, pyMapM, ih]
    cases f x <;> cases pyMapM f xs <;> cases pyMapM f ys <;> rfl

theorem pyMapM_map (f : β → Except PyErr γ) (g : α → β) (l : List α) :
    pyMapM f (l.map g) = pyMapM (fun a => f (g a)) l := by
  induction l with
  | nil => rfl
  | cons x xs ih => simp only [List.map_cons, pyMapM, ih]

theorem pyMapM_vInt (l : List Int) : pyMapM pyInt (l.map .vInt) = .ok l := by
  induction l with
  | nil => rfl
  | cons x xs ih => simp only [List.map_cons, pyMapM, pyInt, ih]

theorem pyMapM_congr (f g : α → Except PyErr β) (l : List α)
    (h : ∀ a ∈ l, f a = g a) : pyMapM f l = pyMapM g l := by
  induction l with
  | nil => rfl
  | cons x xs ih =>
    simp only [pyMapM, h x (by simp)]
    rw [ih (fun a ha => h a (by simp [ha]))]

theorem pyMapM_range_ok (c : Nat) (f : Nat → PyVal) (g : Nat → Int)
    (hf : ∀ j < c, f j = .vInt (g j)) :
    pyMapM (fun j => pyInt (f j)) (List.range c) = .ok ((List.range c).map g) := by
  induction c with
  | zero => rfl
  | succ c ih =>
    rw [List.range_succ, pyMapM_append, ih (fun j hj => hf j (by omega))]
    simp [pyMapM, hf c (by omega), pyInt, List.range_succ]

/-- The flat branch of `_require_2d_int` reconstructs the original matrix. -/
theorem flat_reshape (M : List (List Int)) (c : Nat)
    (hrow : ∀ row ∈ M, row.length = c) :
    pyMapM (fun i =>
        pyMapM (fun j => pyInt ((M.flatten.map PyVal.vInt).getD (i * c + j) (.vStr "")))
          (List.range c))
      (List.range M.length) = .ok M := by
  induction M with
  | nil => rfl
  | cons row rest ih =>
    have hlen : row.length = c := hrow row (by simp)
    rw [List.length_cons, List.range_succ_eq_map]
    simp only [pyMapM]
    have hhead :
        pyMapM (fun j =>
            pyInt (((row :: rest).flatten.map PyVal.vInt).getD (0 * c + j) (.vStr "")))
          (List.range c) = .ok row := by
      rw [pyMapM_range_ok c _ (fun j => row.getD j 0) ?_]
      · rw [← hlen, getD_range_eq]
      · intro j hj
        simp only [Nat.zero_mul, Nat.zero_add, List.flatten_cons, List.map_append]
        rw [getD_append_lt _ _ j _ (by simpa [hlen] using hj)]
        exact getD_map_lt PyVal.vInt row j _ 0 (by omega)
    rw [hhead]
    have htail :
        pyMapM (fun i =>
            pyMapM (fun j =>
                pyInt (((row :: rest).flatten.map PyVal.vInt).getD (i * c + j) (.vStr "")))
              (List.range c))
          ((List.range rest.length).map Nat.succ) = .ok rest := by
      rw [pyMapM_map]
      rw [pyMapM_congr _ (fun i =>
          pyMapM (fun j => pyInt ((rest.flatten.map PyVal.vInt).getD (i * c + j) (.vStr "")))
            (List.range c)) _ ?_]
      · exact ih (fun r hr => hrow r (by simp [hr]))
      · intro i _
        apply pyMapM_congr
        intro j hj
        simp only [List.flatten_cons, List.map_append]
        rw [getD_append_ge _ _ _ _ (by
          simp only [List.length_map, hlen]
          rw [Nat.succ_mul]
          omega)]
        have hidx : Nat.succ i * c + j - (List.map PyVal.vInt row).length = i * c + j := by
          simp only [List.length_map, hlen]
          rw [Nat.succ_mul]
          omega
        rw [hidx]
    rw [htail]

theorem pyMapM_ok_of (f : α → Except PyErr α) (l : List α)
    (h : ∀ a ∈ l, f a = .ok a) : pyMapM f l = .ok l := by
  induction l with
  | nil => rfl
  | cons x xs ih =>
    simp only [pyMapM, h x (by simp)]
    rw [ih (fun a ha => h a (by simp [ha]))]

/-- A nested 2-D JSON-style encoding of an integer matrix. -/
def encodeNested (M : List (List Int)) : PyVal :=
  .vList (M.map (fun row => .vList (row.map .vInt)))

theorem flatten_length_int (M : List (List Int)) (c : Int)
    (hc : ∀ row ∈ M, (row.length : Int) = c) :
    (M.flatten.length : Int) = M.length * c := by
  induction M with
  | nil => simp
  | cons row rest ih =>
    have h1 : (row.length : Int) = c := hc row (by simp)
    have h2 := ih (fun r hr => hc r (by simp [hr]))
    simp only [List.flatten_cons, List.length_append, List.length_cons]
    push_cast
    rw [h1, h2]
    ring


/-! ### Characterization of `validate_solution` -/

/-- The per-operation conditions enforced by `validate_solution`'s loop. -/
def opAdmissible (mset : List String) (op : Operation) : Prop :=
  0 ≤ op.start ∧ 0 ≤ op.«end» ∧ 0 ≤ op.duration ∧ op.start ≤ op.«end» ∧
    op.machineId ∈ mset

/-- The `(jobId, opId)` key of an operation. -/
def opKey (op : Operation) : String × String := (op.jobId, op.opId)

/-- The running-maximum update of `validate_solution`'s loop, folded. -/
def foldMaxEnd (me : Int) (ops : List Operation) : Int :=
  ops.foldl (fun m op => if m < op.«end» then op.«end» else m) me

theorem checkOps_ok_iff (mset : List String) :
    ∀ (ops : List Operation) (seen : List (String × String)) (me : Int),
      (∃ v, checkOps mset ops seen me = .ok v)
        ↔ ((∀ op ∈ ops, opAdmissible mset op)
            ∧ (ops.map opKey).Nodup
            ∧ ∀ k ∈ ops.map opKey, k ∉ seen) := by
  intro ops
  induction ops with
  | nil =>
    intro seen me
    simp [checkOps]
  | cons op rest ih =>
    intro seen me
    simp only [checkOps]
    by_cases h1 : op.start < 0 ∨ op.«end» < 0 ∨ op.duration < 0
    · rw [if_pos h1]
      constructor
      · rintro ⟨v, hv⟩
        exact absurd hv (by simp)
      · rintro ⟨hadm, -, -⟩
        have h := hadm op (by simp)
        unfold opAdmissible at h
        omega
    · rw [if_neg h1]
      by_cases h2 : op.«end» < op.start
      · rw [if_pos h2]
        constructor
        · rintro ⟨v, hv⟩
          exact absurd hv (by simp)
        · rintro ⟨hadm, -, -⟩
          have h := hadm op (by simp)
          unfold opAdmissible at h
          omega
      · rw [if_neg h2]
        by_cases h3 : op.machineId ∉ mset
        · rw [if_pos h3]
          constructor
          · rintro ⟨v, hv⟩
            exact absurd hv (by simp)
          · rintro ⟨hadm, -, -⟩
            have h := hadm op (by simp)
            unfold opAdmissible at h
            tauto
        · rw [if_neg h3]
          by_cases h4 : (op.jobId, op.opId) ∈ seen
          · rw [if_pos h4]
            constructor
            · rintro ⟨v, hv⟩
              exact absurd hv (by simp)
            · rintro ⟨-, -, hfresh⟩
              exact absurd h4 (hfresh (op.jobId, op.opId) (by simp [opKey]))
          · rw [if_neg h4]
            rw [ih ((op.jobId, op.opId) :: seen) _]
            constructor
            · rintro ⟨hadm, hnd, hfresh⟩
              refine ⟨?_, ?_, ?_⟩
              · intro o ho
                rcases List.mem_cons.mp ho with rfl | ho
                · exact ⟨by omega, by omega, by omega, by omega, by tauto⟩
                · exact hadm o ho
              · simp only [List.map_cons, List.nodup_cons]
                constructor
                · intro hmem
                  have := hfresh _ hmem
                  simp [opKey] at this
                · exact hnd
              · intro k hk hkseen
                rcases List.mem_cons.mp hk with rfl | hk
                · simp [opKey] at h4
                  exact h4 hkseen
                · exact hfresh k hk (List.mem_cons_of_mem _ hkseen)
            · rintro ⟨hadm, hnd, hfresh⟩
              refine ⟨fun o ho => hadm o (List.mem_cons_of_mem _ ho), ?_, ?_⟩
              · simp only [List.map_cons, List.nodup_cons] at hnd
                exact hnd.2
              · intro k hk
                simp only [List.mem_cons, not_or]
                constructor
                · intro hcontr
                  simp only [List.map_cons, List.nodup_cons] at hnd
                  apply hnd.1
                  rw [show opKey op = (op.jobId, op.opId) from rfl, ← hcontr]
                  exact hk
                · exact hfresh k (List.mem_cons_of_mem _ hk)

theorem checkOps_ok_val (mset : List String) :
    ∀ (ops : List Operation) (seen : List (String × String)) (me v : Int),
      checkOps mset ops seen me = .ok v → v = foldMaxEnd me ops := by
  intro ops
  induction ops with
  | nil =>
    intro seen me v hv
    simp only [checkOps, foldMaxEnd, List.foldl_nil] at hv ⊢
    exact (Except.ok.injEq _ _ ▸ congrArg id hv).symm ▸ by
      cases hv
      rfl
  | cons op rest ih =>
    intro seen me v hv
    simp only [checkOps] at hv
    by_cases h1 : op.start < 0 ∨ op.«end» < 0 ∨ op.duration < 0
    · rw [if_pos h1] at hv; cases hv
    · rw [if_neg h1] at hv
      by_cases h2 : op.«end» < op.start
      · rw [if_pos h2] at hv; cases hv
      · rw [if_neg h2] at hv
        by_cases h3 : op.machineId ∉ mset
        · rw [if_pos h3] at hv; cases hv
        · rw [if_neg h3] at hv
          by_cases h4 : (op.jobId, op.opId) ∈ seen
          · rw [if_pos h4] at hv; cases hv
          · rw [if_neg h4] at hv
            have := ih _ _ _ hv
            simpa [foldMaxEnd] using this

theorem foldMaxEnd_le_iff (x : Int) :
    ∀ (ops : List Operation) (me : Int),
      foldMaxEnd me ops ≤ x ↔ me ≤ x ∧ ∀ op ∈ ops, op.«end» ≤ x := by
  intro ops
  induction ops with
  | nil =>
    intro me
    simp [foldMaxEnd]
  | cons op rest ih =>
    intro me
    simp only [foldMaxEnd, List.foldl_cons] at ih ⊢
    rw [ih]
    by_cases h : me < op.«end»
    · rw [if_pos h]
      constructor
      · rintro ⟨h1, h2⟩
        exact ⟨by omega, fun o ho => by
          rcases List.mem_cons.mp ho with rfl | ho
          · omega
          · exact h2 o ho⟩
      · rintro ⟨h1, h2⟩
        exact ⟨h2 op (by simp), fun o ho => h2 o (List.mem_cons_of_mem _ ho)⟩
    · rw [if_neg h]
      constructor
      · rintro ⟨h1, h2⟩
        exact ⟨h1, fun o ho => by
          rcases List.mem_cons.mp ho with rfl | ho
          · omega
          · exact h2 o ho⟩
      · rintro ⟨h1, h2⟩
        exact ⟨h1, fun o ho => h2 o (List.mem_cons_of_mem _ ho)⟩

theorem length_eq_dedup_length_iff (l : List String) :
    l.length = l.dedup.length ↔ l.Nodup := by
  constructor
  · intro h
    have hsub : l.dedup.Sublist l := List.dedup_sublist l
    have : l.dedup = l := hsub.eq_of_length h.symm
    rw [← this]
    exact List.nodup_dedup l
  · intro h
    rw [List.dedup_eq_self.mpr h]

/-! ## Claim theorems -/

/-! ### C7: the permissive boolean parse -/

/-- C7 counterexample: the numeric value `2` — neither a boolean literal,
nor numeric 0/1, nor one of the accepted strings — is nevertheless accepted
by `_parse_bool` (Python computes `bool(int(2)) = True`), contradicting the
claim that every such value is an error. -/
theorem C7_counterexample : parse_bool (.vInt 2) = .ok true := rfl

/-- C7 (amended): `_parse_bool` accepts exactly booleans (identically), any
numeric value (mapped to `false` iff its integer value is 0 — so numeric 2
parses as `true`), and the string forms {"true","t","1"} / {"false","f","0"}
after stripping and case-folding; every other string, and every non-scalar
value, raises an error. -/
theorem C7_parse_bool_spec :
    (∀ b : Bool, parse_bool (.vBool b) = .ok b)
  ∧ (∀ n : Int, parse_bool (.vInt n) = .ok (n != 0))
  ∧ (∀ s : String, (pyLower (pyStrip s) = "true" ∨ pyLower (pyStrip s) = "t" ∨
        pyLower (pyStrip s) = "1" → parse_bool (.vStr s) = .ok true)
      ∧ (pyLower (pyStrip s) = "false" ∨ pyLower (pyStrip s) = "f" ∨
        pyLower (pyStrip s) = "0" → parse_bool (.vStr s) = .ok false)
      ∧ (pyLower (pyStrip s) ∉ (["true", "t", "1", "false", "f", "0"] : List String) →
        parse_bool (.vStr s) = .error (.valueError s!"Cannot parse boolean from {s}")))
  ∧ (∀ xs : List PyVal, ∃ e, parse_bool (.vList xs) = .error e) := by
  refine ⟨fun b => rfl, fun n => rfl, fun s => ⟨?_, ?_, ?_⟩, fun xs => ⟨_, rfl⟩⟩
  · intro h
    simp only [parse_bool]
    rw [if_pos h]
  · intro h
    have hne : ¬ (pyLower (pyStrip s) = "true" ∨ pyLower (pyStrip s) = "t" ∨
        pyLower (pyStrip s) = "1") := by
      rcases h with h | h | h <;> rw [h] <;> decide
    simp only [parse_bool]
    rw [if_neg hne, if_pos h]
  · intro h
    simp only [List.mem_cons, List.not_mem_nil, or_false] at h
    push_neg at h
    obtain ⟨h1, h2, h3, h4, h5, h6⟩ := h
    simp only [parse_bool]
    rw [if_neg (by tauto), if_neg (by tauto)]

/-- C7 witness: the three accepting families and a rejected string, at
concrete inputs. -/
theorem C7_parse_bool_spec_witness :
    (pyLower (pyStrip "TRUE") = "true" ∨ pyLower (pyStrip "TRUE") = "t" ∨
      pyLower (pyStrip "TRUE") = "1")
  ∧ parse_bool (.vStr "TRUE") = .ok true
  ∧ (pyLower (pyStrip " f ") = "false" ∨ pyLower (pyStrip " f ") = "f" ∨
      pyLower (pyStrip " f ") = "0")
  ∧ parse_bool (.vStr " f ") = .ok false
  ∧ (pyLower (pyStrip "yes") ∉ (["true", "t", "1", "false", "f", "0"] : List String))
  ∧ parse_bool (.vStr "yes") = .error (.valueError "Cannot parse boolean from yes") := by
  refine ⟨by decide, (C7_parse_bool_spec.2.2.1 "TRUE").1 (by decide),
    by decide, ((C7_parse_bool_spec.2.2.1 " f ").2.1 (by decide)),
    by decide, ((C7_parse_bool_spec.2.2.1 "yes").2.2 (by decide))⟩

/-! ### C2: backend selection and fallback -/

/-- A lookup environment in which every backend lookup succeeds. -/
def envAllAvailable : LookupEnv := ⟨fun name => .ok (some ⟨name⟩)⟩

/-- A lookup environment in which the OR-Tools lookup raises and the
fallback lookups return no solver. -/
def envNoBackend : LookupEnv :=
  ⟨fun name =>
    if name = "com.google.ortools.sat" then .error (.runtimeError "lookup failed")
    else .ok none⟩

/-- C2 counterexample: with every backend available, an unrecognized solver
identifier ("cplex") is rejected with `ValueError` before any lookup —
`_build_instance` does not fall back to a default order of backends for
unrecognized identifiers, contradicting the claim. -/
theorem C2_counterexample :
    build_instance envAllAvailable "model.mzn" "cplex"
      = .error (.valueError "Unsupported solver: cplex") := rfl

/-- C2 (amended): an identifier outside the three supported ones is
rejected immediately with `ValueError` (no backend attempted); the fallback
order (gecode, then chuffed) applies when a supported identifier's lookup
raises; and only when that fallback chain yields no solver object is the
`RuntimeError` naming the missing MiniZinc toolchain reported. -/
theorem C2_build_instance_spec :
    (∀ (env : LookupEnv) (mp cfg : String), solver_map cfg = none →
      build_instance env mp cfg = .error (.valueError s!"Unsupported solver: {cfg}"))
  ∧ (∀ (env : LookupEnv) (mp cfg name : String) (e : PyErr) (s : MzSolver),
      solver_map cfg = some name → env.lookup name = .error e →
      env.lookup "gecode" = .ok (some s) →
      build_instance env mp cfg = .ok ⟨s, mp⟩)
  ∧ (∀ (env : LookupEnv) (mp cfg name : String) (e : PyErr),
      solver_map cfg = some name → env.lookup name = .error e →
      env.lookup "gecode" = .ok none → env.lookup "chuffed" = .ok none →
      build_instance env mp cfg = .error (.runtimeError
        (s!"Solver '{cfg}' not found. " ++
          "Ensure MiniZinc is installed with the required solver."))) := by
  refine ⟨?_, ?_, ?_⟩
  · intro env mp cfg h
    simp only [build_instance, h]
  · intro env mp cfg name e s hmap hname hgec
    simp only [build_instance, hmap, hname, hgec]
  · intro env mp cfg name e hmap hname hgec hchu
    simp only [build_instance, hmap, hname, hgec, hchu]

/-- C2 witness: the three branches at concrete environments — rejection of
"cplex", fallback to gecode when the or-tools lookup raises, and the
missing-toolchain error when no backend is available. -/
theorem C2_build_instance_spec_witness :
    solver_map "cplex" = none
  ∧ build_instance envNoBackend "m.mzn" "cplex"
      = .error (.valueError "Unsupported solver: cplex")
  ∧ solver_map "or-tools" = some "com.google.ortools.sat"
  ∧ envAllAvailable.lookup "gecode" = .ok (some ⟨"gecode"⟩)
  ∧ envNoBackend.lookup "com.google.ortools.sat" = .error (.runtimeError "lookup failed")
  ∧ envNoBackend.lookup "gecode" = .ok none
  ∧ envNoBackend.lookup "chuffed" = .ok none
  ∧ build_instance envNoBackend "m.mzn" "or-tools"
      = .error (.runtimeError
          "Solver 'or-tools' not found. Ensure MiniZinc is installed with the required solver.") := by
  refine ⟨rfl, C2_build_instance_spec.1 envNoBackend "m.mzn" "cplex" rfl,
    rfl, rfl, rfl, rfl, rfl,
    C2_build_instance_spec.2.2 envNoBackend "m.mzn" "or-tools"
      "com.google.ortools.sat" (.runtimeError "lookup failed") rfl rfl rfl rfl⟩

/-! ### C6: 2-D field extraction round-trip -/

/-- C6 (confirmed): for every r ≥ 0, c ≥ 0, `_require_2d_int` accepts a
properly nested r×c integer matrix and the corresponding flat sequence of
length r*c, both normalizing to the identical r×c matrix; a nested value
with wrong row count or ragged columns raises a `ValueError` naming the
expected shape, as does a non-nested list whose flat length differs from
r*c — never truncated or padded. -/
theorem C6_require_2d_int_roundtrip (r c : Int) (key : String) (hr0 : 0 ≤ r) (hc0 : 0 ≤ c) :
    (∀ (data : Dict) (M : List (List Int)),
      dictGet data key = some (encodeNested M) →
      (M.length : Int) = r → (∀ row ∈ M, (row.length : Int) = c) →
      require_2d_int data key r c = .ok M)
  ∧ (∀ (data : Dict) (M : List (List Int)),
      dictGet data key = some (.vList (M.flatten.map .vInt)) →
      (M.length : Int) = r → (∀ row ∈ M, (row.length : Int) = c) →
      require_2d_int data key r c = .ok M)
  ∧ (∀ (data : Dict) (ms : List PyVal),
      dictGet data key = some (.vList ms) →
      ms ≠ [] → (∀ v ∈ ms, isVList v = true) →
      ((ms.length : Int) ≠ r ∨ ∃ v ∈ ms, ((rowItems v).length : Int) ≠ c) →
      require_2d_int data key r c
        = .error (.valueError s!"Key '{key}' must be a 2D list with shape [{r}][{c}]"))
  ∧ (∀ (data : Dict) (ms : List PyVal),
      dictGet data key = some (.vList ms) →
      (ms = [] ∨ ∃ v ∈ ms, isVList v = false) →
      r * c ≠ (ms.length : Int) →
      require_2d_int data key r c
        = .error (.valueError s!"Key '{key}' must be a 2D list of ints with shape [{r}][{c}]")) := by
  refine ⟨?_, ?_, ?_, ?_⟩
  · -- nested acceptance
    intro data M hget hr hc
    simp only [require_2d_int, hget, encodeNested]
    cases M with
    | nil =>
      have hr' : r = 0 := by simpa using hr.symm
      subst hr'
      simp [pyMapM]
    | cons row rest =>
      rw [if_pos ?cond]
      case cond =>
        simp [isVList]
      rw [if_neg ?shape]
      case shape =>
        simp only [Bool.or_eq_true, bne_iff_ne, List.any_eq_true]
        push_neg
        constructor
        · simpa using hr
        · intro v hv
          simp only [List.mem_map] at hv
          obtain ⟨row', hrow', rfl⟩ := hv
          simpa [rowItems] using hc row' hrow'
      rw [pyMapM_map]
      rw [pyMapM_ok_of _ _ (fun row' hrow' => by
        simp only [rowItems]
        exact pyMapM_vInt row')]
  · -- flat acceptance
    intro data M hget hr hc
    simp only [require_2d_int, hget]
    have hflen : ((M.flatten.map PyVal.vInt).length : Int) = r * c := by
      rw [List.length_map]
      rw [flatten_length_int M c hc, hr]
    rw [if_neg ?notnested]
    case notnested =>
      cases hM : M.flatten with
      | nil => simp [hM]
      | cons x xs =>
        simp only [Bool.and_eq_true, List.all_eq_true, Bool.not_eq_true', not_and]
        intro _
        push_neg
        refine ⟨PyVal.vInt x, ?_, by simp [isVList]⟩
        simp [hM]
    rw [if_pos hflen.symm]
    -- reshape
    have hrtoNat : r.toNat = M.length := by omega
    cases hMnil : M with
    | nil =>
      subst hMnil
      simp only [List.length_nil] at hrtoNat
      rw [hrtoNat]
      rfl
    | cons row rest =>
      have hcNat : c.toNat = row.length := by
        have := hc row (by simp [hMnil])
        omega
      rw [hrtoNat, hcNat]
      rw [← hMnil]
      apply flat_reshape
      intro row' hrow'
      have h1 := hc row' hrow'
      have h2 := hc row (by simp [hMnil])
      omega
  · -- nested shape error
    intro data ms hget hne hall hbad
    simp only [require_2d_int, hget]
    rw [if_pos ?cond]
    case cond =>
      simp only [Bool.and_eq_true, Bool.not_eq_true', List.isEmpty_iff, List.all_eq_true]
      exact ⟨by simpa using hne, hall⟩
    rw [if_pos ?shape]
    case shape =>
      simp only [Bool.or_eq_true, bne_iff_ne, List.any_eq_true]
      rcases hbad with h | ⟨v, hv, hvne⟩
      · exact Or.inl h
      · exact Or.inr ⟨v, hv, hvne⟩
  · -- flat length error
    intro data ms hget hnolist hlen
    simp only [require_2d_int, hget]
    rw [if_neg ?cond]
    case cond =>
      rcases hnolist with rfl | ⟨v, hv, hvfalse⟩
      · simp
      · simp only [Bool.and_eq_true, Bool.not_eq_true', List.isEmpty_iff, List.all_eq_true,
          not_and]
        intro _
        push_neg
        exact ⟨v, hv, by simp [hvfalse]⟩
    rw [if_neg hlen]


/-- C6 witness: the nested and flattened forms of `[[1,2],[3,4]]` both
normalize to the same matrix, and a flat list of the wrong length is
rejected with the shape-naming error. -/
theorem C6_require_2d_int_roundtrip_witness :
    (0 : Int) ≤ 2
  ∧ dictGet [("d", encodeNested [[1, 2], [3, 4]])] "d"
      = some (encodeNested [[1, 2], [3, 4]])
  ∧ (([[1, 2], [3, 4]] : List (List Int)).length : Int) = 2
  ∧ (∀ row ∈ ([[1, 2], [3, 4]] : List (List Int)), (row.length : Int) = 2)
  ∧ require_2d_int [("d", encodeNested [[1, 2], [3, 4]])] "d" 2 2
      = .ok [[1, 2], [3, 4]]
  ∧ require_2d_int
      [("d", .vList (([[1, 2], [3, 4]] : List (List Int)).flatten.map .vInt))] "d" 2 2
      = .ok [[1, 2], [3, 4]]
  ∧ require_2d_int [("d", .vList [.vInt 1, .vInt 2, .vInt 3])] "d" 2 2
      = .error (.valueError "Key 'd' must be a 2D list of ints with shape [2][2]") := by
  refine ⟨by decide, rfl, by decide, by decide, ?_, ?_, ?_⟩
  · exact (C6_require_2d_int_roundtrip 2 2 "d" (by decide) (by decide)).1
      [("d", encodeNested [[1, 2], [3, 4]])] [[1, 2], [3, 4]] rfl (by decide) (by decide)
  · exact (C6_require_2d_int_roundtrip 2 2 "d" (by decide) (by decide)).2.1
      [("d", .vList (([[1, 2], [3, 4]] : List (List Int)).flatten.map .vInt))]
      [[1, 2], [3, 4]] rfl (by decide) (by decide)
  · exact (C6_require_2d_int_roundtrip 2 2 "d" (by decide) (by decide)).2.2.2
      [("d", .vList [.vInt 1, .vInt 2, .vInt 3])] [.vInt 1, .vInt 2, .vInt 3] rfl
      (Or.inr ⟨.vInt 1, List.mem_cons_self _ _, rfl⟩) (by decide)

/-! ### C5: the solution validator's exact acceptance condition -/

/-- C5 (confirmed): `validate_solution` succeeds iff machine ids are
pairwise distinct, every operation has non-negative start/end/duration with
`end ≥ start` and a declared machine, the `(jobId, opId)` pairs are pairwise
distinct, and the makespan is at least every operation end (and at least 0,
the loop's initial running maximum); equivalently it raises a `ValueError`
iff one of those invariants fails — and `end = start + duration` is nowhere
required. -/
theorem C5_validate_solution_iff (sol : Solution) :
    validate_solution sol = .ok ()
      ↔ ((sol.machines.map Machine.id).Nodup
        ∧ (∀ op ∈ sol.operations,
            0 ≤ op.start ∧ 0 ≤ op.«end» ∧ 0 ≤ op.duration ∧ op.start ≤ op.«end» ∧
              op.machineId ∈ sol.machines.map Machine.id)
        ∧ (sol.operations.map (fun op => (op.jobId, op.opId))).Nodup
        ∧ 0 ≤ sol.makespan
        ∧ ∀ op ∈ sol.operations, op.«end» ≤ sol.makespan) := by
  unfold validate_solution
  by_cases hdup :
      (sol.machines.map (·.id)).length ≠ (sol.machines.map (·.id)).dedup.length
  · rw [if_pos hdup]
    constructor
    · intro h
      exact absurd h (by simp)
    · rintro ⟨hnodup, -⟩
      exact absurd ((length_eq_dedup_length_iff _).mpr hnodup) hdup
  · rw [if_neg hdup]
    push_neg at hdup
    have hnodup : (sol.machines.map Machine.id).Nodup :=
      (length_eq_dedup_length_iff _).mp hdup
    cases hchk : checkOps (sol.machines.map (·.id)) sol.operations [] 0 with
    | error e =>
      constructor
      · intro h
        exact absurd h (by simp)
      · rintro ⟨-, hadm, hkeys, -, -⟩
        have : ∃ v, checkOps (sol.machines.map (·.id)) sol.operations [] 0 = .ok v := by
          rw [checkOps_ok_iff]
          refine ⟨?_, ?_, by simp⟩
          · intro op hop
            exact hadm op hop
          · exact hkeys
        rw [hchk] at this
        exact absurd this (by simp)
    | ok v =>
      have hv : v = foldMaxEnd 0 sol.operations := checkOps_ok_val _ _ _ _ _ hchk
      have hconds := (checkOps_ok_iff (sol.machines.map (·.id))
        sol.operations [] 0).mp ⟨v, hchk⟩
      have hred : (match (Except.ok v : Except PyErr Int) with
          | Except.error e => Except.error e
          | Except.ok max_end =>
            if sol.makespan < max_end then
              (Except.error (PyErr.valueError
                "solution.makespan must be >= max end across operations") :
                Except PyErr Unit)
            else Except.ok ())
          = (if sol.makespan < v then
              (Except.error (PyErr.valueError
                "solution.makespan must be >= max end across operations") :
                Except PyErr Unit)
            else Except.ok ()) := rfl
      rw [hred]
      by_cases hms : sol.makespan < v
      · rw [if_pos hms]
        constructor
        · intro h
          exact absurd h (by simp)
        · rintro ⟨-, -, -, hms0, hbound⟩
          have : foldMaxEnd 0 sol.operations ≤ sol.makespan :=
            (foldMaxEnd_le_iff _ _ _).mpr ⟨hms0, hbound⟩
          omega
      · rw [if_neg hms]
        constructor
        · intro _
          have hle : foldMaxEnd 0 sol.operations ≤ sol.makespan := by omega
          have hb := (foldMaxEnd_le_iff sol.makespan sol.operations 0).mp hle
          exact ⟨hnodup, fun op hop => hconds.1 op hop, hconds.2.1, hb.1, hb.2⟩
        · intro _
          rfl

/-- C5 witness-style sanity instance: a schedule whose single operation has
`end ≠ start + duration` still validates (the recommended invariant is
not checked), while a makespan below the operation end is rejected. -/
theorem C5_validate_solution_iff_witness :
    validate_solution
      { makespan := 9,
        machines := [{ id := "M1", name := "M1" }],
        operations := [{ jobId := "J1", machineId := "M1", opId := "J1-1",
                          start := 0, «end» := 9, duration := 3 }],
        stats := [] } = .ok ()
  ∧ validate_solution
      { makespan := 2,
        machines := [{ id := "M1", name := "M1" }],
        operations := [{ jobId := "J1", machineId := "M1", opId := "J1-1",
                          start := 0, «end» := 9, duration := 9 }],
        stats := [] }
      = .error (.valueError "solution.makespan must be >= max end across operations") := by
  constructor
  · rw [C5_validate_solution_iff]
    refine ⟨by simp, ?_, by simp, by decide, ?_⟩
    · intro op hop
      rcases List.mem_singleton.mp hop with rfl
      refine ⟨by decide, by decide, by decide, by decide, by simp⟩
    · intro op hop
      rcases List.mem_singleton.mp hop with rfl
      decide
  · rfl

/-! ### C9: invariants of normalizer-built schedules -/

/-- The operation built for cell `(i, j)` by both runners' double loop. -/
def opCell (s d : List (List Int)) (i j : Nat) : Operation :=
  { jobId := s!"J{i}", machineId := s!"M{j}", opId := s!"J{i}-{j}",
    start := get2 s (i - 1) (j - 1),
    «end» := get2 s (i - 1) (j - 1) + get2 d (i - 1) (j - 1),
    duration := get2 d (i - 1) (j - 1) }

theorem range1_nodup (n : Int) : (range1 n).Nodup :=
  (List.nodup_range n.toNat).map (fun a b h => by omega)

theorem buildOps_eq_product (jobs tasks : Int) (s d : List (List Int)) :
    buildOps jobs tasks s d
      = ((range1 jobs) ×ˢ (range1 tasks)).map (fun p => opCell s d p.1 p.2) := by
  simp only [List.product, SProd.sprod, List.map_flatMap, List.map_map]
  rfl

theorem jobKey_injective :
    Function.Injective
      (fun p : Nat × Nat => ((s!"J{p.1}" : String), (s!"J{p.1}-{p.2}" : String))) := by
  rintro ⟨a, b⟩ ⟨a', b'⟩ h
  simp only [Prod.mk.injEq] at h
  obtain ⟨h1, h2⟩ := h
  have ha : a = a' := mkJ_inj h1
  subst ha
  have hb : b = b' := mkOp_inj_right h2
  subst hb
  rfl

theorem mkMachines_ids (tasks : Int) :
    (mkMachines tasks).map Machine.id = (range1 tasks).map (fun j => s!"M{j}") := by
  simp only [mkMachines, List.map_map]
  rfl

/-- The four structural invariants shared by every schedule the two
normalizers build. -/
def schedInvariants (sol : Solution) : Prop :=
  (∀ op ∈ sol.operations, op.«end» = op.start + op.duration)
  ∧ (sol.machines.map Machine.id).Nodup
  ∧ (sol.operations.map opKey).Nodup
  ∧ ∀ op ∈ sol.operations, op.machineId ∈ sol.machines.map Machine.id

theorem buildOps_invariants (jobs tasks : Int) (s d : List (List Int)) :
    (∀ op ∈ buildOps jobs tasks s d, op.«end» = op.start + op.duration)
  ∧ ((mkMachines tasks).map Machine.id).Nodup
  ∧ ((buildOps jobs tasks s d).map opKey).Nodup
  ∧ ∀ op ∈ buildOps jobs tasks s d,
      op.machineId ∈ (mkMachines tasks).map Machine.id := by
  refine ⟨?_, ?_, ?_, ?_⟩
  · intro op hop
    rw [buildOps_eq_product] at hop
    obtain ⟨p, -, rfl⟩ := List.mem_map.mp hop
    rfl
  · rw [mkMachines_ids]
    exact (range1_nodup tasks).map (fun a b h => mkM_inj h)
  · rw [buildOps_eq_product, List.map_map]
    have hprod : ((range1 jobs) ×ˢ (range1 tasks)).Nodup :=
      (range1_nodup jobs).product (range1_nodup tasks)
    have heq : (opKey ∘ fun p : Nat × Nat => opCell s d p.1 p.2)
        = fun p : Nat × Nat => ((s!"J{p.1}" : String), (s!"J{p.1}-{p.2}" : String)) := rfl
    rw [heq]
    exact hprod.map jobKey_injective
  · intro op hop
    rw [buildOps_eq_product] at hop
    obtain ⟨p, hp, rfl⟩ := List.mem_map.mp hop
    rw [mkMachines_ids]
    have hj : p.2 ∈ range1 tasks := (List.mem_product.mp hp).2
    exact List.mem_map.mpr ⟨p.2, hj, rfl⟩

/-- C9 (confirmed): every schedule either variant runner constructs
satisfies, by construction, `end = start + duration` for every operation,
pairwise-distinct machine ids `M1..Mtasks`, pairwise-distinct
`(jobId, opId)` pairs, and machine references among the declared
machines — for all dimensions and input/engine matrices whatsoever. -/
theorem C9_normalizer_invariants (jobs tasks MAX_MW w endVal : Int)
    (s d S PT MS ME : List (List Int)) (MA : List (List Bool))
    (dues : List Int) :
    schedInvariants (tardanzaSolution jobs tasks s d dues w).1
  ∧ schedInvariants (maintSolution jobs tasks MAX_MW PT MS ME MA S endVal).1 := by
  constructor
  · obtain ⟨h1, h2, h3, h4⟩ := buildOps_invariants jobs tasks s d
    exact ⟨h1, h2, h3, h4⟩
  · obtain ⟨h1, h2, h3, h4⟩ := buildOps_invariants jobs tasks S PT
    exact ⟨h1, h2, h3, h4⟩

/-! ### C4: tardiness statistics -/

theorem filter_flatMap_eq {α β : Type} (l : List α) (f : α → List β) (p : β → Bool) :
    (l.flatMap f).filter p = l.flatMap fun a => (f a).filter p := by
  induction l with
  | nil => rfl
  | cons x xs ih => simp [List.flatMap_cons, List.filter_append, ih]

theorem flatMap_nil_of_ne {A : List Nat} {i : Nat} {β : Type} (L : List β)
    (h : ∀ a ∈ A, a ≠ i) :
    (A.flatMap fun a => if a = i then L else []) = [] := by
  induction A with
  | nil => rfl
  | cons x xs ih =>
    simp only [List.flatMap_cons, if_neg (h x (by simp)), List.nil_append]
    exact ih (fun a ha => h a (by simp [ha]))

theorem flatMap_single {A : List Nat} (hnd : A.Nodup) {i : Nat} (hi : i ∈ A)
    {β : Type} (L : List β) :
    (A.flatMap fun a => if a = i then L else []) = L := by
  induction A with
  | nil => cases hi
  | cons x xs ih =>
    rcases List.mem_cons.mp hi with rfl | hi'
    · simp only [List.flatMap_cons, if_pos rfl]
      rw [flatMap_nil_of_ne L (fun a ha => by
        intro hcontr
        exact (List.nodup_cons.mp hnd).1 (hcontr ▸ ha))]
      simp
    · have hx : x ≠ i := by
        intro hcontr
        exact (List.nodup_cons.mp hnd).1 (hcontr ▸ hi')
      simp only [List.flatMap_cons, if_neg hx, List.nil_append]
      exact ih (List.nodup_cons.mp hnd).2 hi'

/-- `buildOps` as a flat map of per-job blocks of `opCell`s. -/
theorem buildOps_eq_flatMap (jobs tasks : Int) (s d : List (List Int)) :
    buildOps jobs tasks s d
      = (range1 jobs).flatMap (fun i => (range1 tasks).map (opCell s d i)) := rfl

/-- The job-id filter of the tardiness loop recovers exactly job `i`'s
block of operations. -/
theorem flatMap_congr_fun {α β : Type} {l : List α} {f g : α → List β}
    (h : ∀ a ∈ l, f a = g a) : l.flatMap f = l.flatMap g := by
  induction l with
  | nil => rfl
  | cons x xs ih =>
    simp [List.flatMap_cons, h x (by simp), ih (fun a ha => h a (by simp [ha]))]

theorem jobOps_filter (jobs tasks : Int) (s d : List (List Int)) (i : Nat)
    (hi : i ∈ range1 jobs) :
    (buildOps jobs tasks s d).filter (fun op => op.jobId == s!"J{i}")
      = (range1 tasks).map (opCell s d i) := by
  rw [buildOps_eq_flatMap, filter_flatMap_eq]
  have hblock : ∀ i' : Nat,
      ((range1 tasks).map (opCell s d i')).filter (fun op => op.jobId == s!"J{i}")
        = if i' = i then (range1 tasks).map (opCell s d i) else [] := by
    intro i'
    by_cases h : i' = i
    · subst h
      rw [if_pos rfl]
      apply List.filter_eq_self.mpr
      intro op hop
      obtain ⟨j, -, rfl⟩ := List.mem_map.mp hop
      exact beq_self_eq_true _
    · rw [if_neg h]
      rw [List.filter_eq_nil_iff.mpr]
      intro op hop
      obtain ⟨j, -, rfl⟩ := List.mem_map.mp hop
      simp only [opCell, beq_iff_eq]
      intro hcontr
      exact h (mkJ_inj hcontr)
  rw [flatMap_congr_fun (fun a _ => hblock a)]
  exact flatMap_single (range1_nodup jobs) hi _

/-- The accumulator recurrence of the tardiness loop, solved in closed
form over an arbitrary index list and a non-negative tardiness family. -/
theorem tardanza_fold (T : Nat → Int) (hT : ∀ i, 0 ≤ T i) :
    ∀ (L : List Nat) (t0 c0 m0 : Int), 0 ≤ m0 →
      L.foldl (fun acc i =>
          if 0 < T i then (acc.1 + T i, acc.2.1 + 1, max acc.2.2 (T i)) else acc)
        (t0, c0, m0)
      = (t0 + (L.map T).sum,
         c0 + ((L.filter (fun i => decide (0 < T i))).length : Int),
         (L.map T).foldl max m0) := by
  intro L
  induction L with
  | nil =>
    intro t0 c0 m0 _
    simp
  | cons i L ih =>
    intro t0 c0 m0 hm0
    simp only [List.foldl_cons, List.map_cons, List.sum_cons, List.filter_cons]
    by_cases h : 0 < T i
    · rw [if_pos h, ih _ _ _ (le_trans hm0 (le_max_left _ _))]
      rw [if_pos (by simpa using h)]
      refine congrArg₂ Prod.mk (by ring) (congrArg₂ Prod.mk ?_ rfl)
      simp only [List.length_cons]
      push_cast
      ring
    · rw [if_neg h, ih _ _ _ hm0]
      have hTi : T i = 0 := le_antisymm (by omega) (hT i)
      rw [if_neg (by simpa using h)]
      refine congrArg₂ Prod.mk (by omega) (congrArg₂ Prod.mk rfl ?_)
      rw [hTi]
      rw [max_eq_left hm0]

/-- The completion time of job `i`: the maximum end over its row of cells
(`0` when there are no tasks), read directly from the matrices. -/
def jobCompletion (tasks : Int) (s d : List (List Int)) (i : Nat) : Int :=
  pyMaxD ((range1 tasks).map (fun j => get2 s (i - 1) (j - 1) + get2 d (i - 1) (j - 1))) 0

/-- The tardiness of job `i`: `max 0 (completion − due_date)`. -/
def jobTardiness (tasks : Int) (s d : List (List Int)) (dues : List Int) (i : Nat) : Int :=
  max 0 (jobCompletion tasks s d i - dues.getD (i - 1) 0)

/-- C4 (confirmed): the tardiness normalizer computes each job's completion
time as the maximum end among that job's operations, its tardiness as
`max 0 (completion − due_date)`, and aggregates `tardanza_total` as the sum
of (positive) tardiness over all jobs, `jobs_tardios` as the count of jobs
with positive tardiness, and `max_tardanza` as the maximum single-job
tardiness; in particular completion times `[20, 60]` against due dates
`[15, 70]` yield `w`-stats `(tardanza_total, jobs_tardios, max_tardanza)
= (5, 1, 5)`. -/
theorem C4_tardanza_stats (jobs tasks : Int) (s d : List (List Int))
    (dues : List Int) (w : Int) :
    (∀ i ∈ range1 jobs,
      jobCompletion tasks s d i
        = pyMaxD (((buildOps jobs tasks s d).filter
            (fun op => op.jobId == s!"J{i}")).map (fun op => op.«end»)) 0)
  ∧ tardanzaStats jobs dues (buildOps jobs tasks s d) w
      = [("w", w),
         ("tardanza_total", ((range1 jobs).map (jobTardiness tasks s d dues)).sum),
         ("jobs_tardios",
           (((range1 jobs).filter
               (fun i => decide (0 < jobTardiness tasks s d dues i))).length : Int)),
         ("max_tardanza", ((range1 jobs).map (jobTardiness tasks s d dues)).foldl max 0)]
  ∧ tardanzaStats 2 [15, 70] (buildOps 2 1 [[0], [40]] [[20], [20]]) 5
      = [("w", 5), ("tardanza_total", 5), ("jobs_tardios", 1), ("max_tardanza", 5)] := by
  refine ⟨?_, ?_, by decide⟩
  · intro i hi
    rw [jobOps_filter jobs tasks s d i hi]
    unfold jobCompletion
    rw [List.map_map]
    rfl
  · unfold tardanzaStats
    have hext : (range1 jobs).foldl
        (fun (acc : Int × Int × Int) i =>
          let job_ops := (buildOps jobs tasks s d).filter
            (fun op => op.jobId == s!"J{i}")
          let completion := pyMaxD (job_ops.map (fun op => op.«end»)) 0
          let due := dues.getD (i - 1) 0
          let tardiness := max 0 (completion - due)
          if 0 < tardiness then (acc.1 + tardiness, acc.2.1 + 1, max acc.2.2 tardiness)
          else acc)
        (0, 0, 0)
        = (range1 jobs).foldl
          (fun (acc : Int × Int × Int) i =>
            if 0 < jobTardiness tasks s d dues i then
              (acc.1 + jobTardiness tasks s d dues i, acc.2.1 + 1,
                max acc.2.2 (jobTardiness tasks s d dues i))
            else acc)
          (0, 0, 0) := by
      apply List.foldl_ext
      intro acc i hi
      simp only [jobOps_filter jobs tasks s d i hi, List.map_map]
      rfl
    rw [hext]
    rw [tardanza_fold (jobTardiness tasks s d dues) (fun i => le_max_left _ _)
      (range1 jobs) 0 0 0 le_rfl]
    simp

/-- C4 witness: the completion-time characterization instantiated for job 1
of the two-job, one-machine instance with completions `[20, 60]` and due
dates `[15, 70]`. -/
theorem C4_tardanza_stats_witness :
    (1 ∈ range1 2)
  ∧ jobCompletion 1 [[0], [40]] [[20], [20]] 1
      = pyMaxD (((buildOps 2 1 [[0], [40]] [[20], [20]]).filter
          (fun op => op.jobId == "J1")).map (fun op => op.«end»)) 0
  ∧ tardanzaStats 2 [15, 70] (buildOps 2 1 [[0], [40]] [[20], [20]]) 5
      = [("w", 5), ("tardanza_total", 5), ("jobs_tardios", 1), ("max_tardanza", 5)] := by
  refine ⟨by decide, ?_, (C4_tardanza_stats 2 1 [[0], [40]] [[20], [20]] [15, 70] 5).2.2⟩
  exact (C4_tardanza_stats 2 1 [[0], [40]] [[20], [20]] [15, 70] 5).1 1 (by decide)

/-! ### C3: maintenance-window normalization -/

/-- The maintenance window for matrix cell `(m, k)`. -/
def maintCell (MS ME : List (List Int)) (m k : Nat) : MaintenanceWindow :=
  { machineId := s!"M{m + 1}", start := get2 MS m k, «end» := get2 ME m k,
    duration := max 0 (get2 ME m k - get2 MS m k) }

/-- Specification-level window list, for comparison with the fold in the
source: one MaintenanceWindow per matrix cell with `MAINT_ACTIVE` true, in
row-major cell order. -/
def maintWindowsSpec (TASKS MAX_MW : Int) (MA : List (List Bool))
    (MS ME : List (List Int)) : List MaintenanceWindow :=
  (List.range TASKS.toNat).flatMap (fun m =>
    ((List.range MAX_MW.toNat).filter (fun k => get2b MA m k)).map
      (fun k => maintCell MS ME m k))

theorem foldl_flatMap_eq {α β γ : Type} (f : γ → β → γ) (a : γ) (l : List α)
    (g : α → List β) :
    (l.flatMap g).foldl f a = l.foldl (fun acc x => (g x).foldl f acc) a := by
  induction l generalizing a with
  | nil => rfl
  | cons x xs ih => simp [List.flatMap_cons, List.foldl_append, ih]

/-- The maintenance accumulator recurrence solved in closed form over an
arbitrary cell list. -/
theorem maint_cells_fold (MA : List (List Bool)) (MS ME : List (List Int)) :
    ∀ (C : List (Nat × Nat)) (c t : Int) (ws : List MaintenanceWindow),
      C.foldl (fun acc mk =>
          if get2b MA mk.1 mk.2 then
            (acc.1 + 1, acc.2.1 + max 0 (get2 ME mk.1 mk.2 - get2 MS mk.1 mk.2),
              acc.2.2 ++ [maintCell MS ME mk.1 mk.2])
          else acc) (c, t, ws)
        = (c + (((C.filter (fun mk => get2b MA mk.1 mk.2)).length : Nat) : Int),
           t + ((C.filter (fun mk => get2b MA mk.1 mk.2)).map
              (fun mk => max 0 (get2 ME mk.1 mk.2 - get2 MS mk.1 mk.2))).sum,
           ws ++ (C.filter (fun mk => get2b MA mk.1 mk.2)).map
              (fun mk => maintCell MS ME mk.1 mk.2)) := by
  intro C
  induction C with
  | nil =>
    intro c t ws
    simp
  | cons mk C ih =>
    intro c t ws
    simp only [List.foldl_cons, List.filter_cons]
    by_cases h : get2b MA mk.1 mk.2
    · rw [if_pos h, ih, if_pos h]
      refine congrArg₂ Prod.mk ?_ (congrArg₂ Prod.mk ?_ ?_)
      · simp only [List.length_cons]
        push_cast
        ring
      · simp only [List.map_cons, List.sum_cons]
        ring
      · simp [List.append_assoc]
    · rw [if_neg h, ih, if_neg h]

/-- `maintWindowsFold` in closed form: count, total time and the window
list of the active cells in row-major order. -/
theorem maintWindowsFold_eq (TASKS MAX_MW : Int) (MA : List (List Bool))
    (MS ME : List (List Int)) :
    maintWindowsFold TASKS MAX_MW MA MS ME
      = (((maintWindowsSpec TASKS MAX_MW MA MS ME).length : Int),
         ((maintWindowsSpec TASKS MAX_MW MA MS ME).map
            (fun mwv => mwv.duration)).sum,
         maintWindowsSpec TASKS MAX_MW MA MS ME) := by
  have hcells : maintWindowsFold TASKS MAX_MW MA MS ME
      = ((List.range TASKS.toNat).flatMap (fun m =>
            (List.range MAX_MW.toNat).map (Prod.mk m))).foldl
          (fun acc mk =>
            if get2b MA mk.1 mk.2 then
              (acc.1 + 1, acc.2.1 + max 0 (get2 ME mk.1 mk.2 - get2 MS mk.1 mk.2),
                acc.2.2 ++ [maintCell MS ME mk.1 mk.2])
            else acc) (0, 0, []) := by
    rw [foldl_flatMap_eq]
    unfold maintWindowsFold
    apply List.foldl_ext
    intro acc m _
    rw [List.foldl_map]
    rfl
  rw [hcells, maint_cells_fold]
  have hactive :
      (((List.range TASKS.toNat).flatMap (fun m =>
          (List.range MAX_MW.toNat).map (Prod.mk m))).filter
        (fun mk => get2b MA mk.1 mk.2)).map (fun mk => maintCell MS ME mk.1 mk.2)
      = maintWindowsSpec TASKS MAX_MW MA MS ME := by
    rw [filter_flatMap_eq, List.map_flatMap]
    unfold maintWindowsSpec
    apply flatMap_congr_fun
    intro m _
    rw [List.filter_map, List.map_map]
    rfl
  have hlen :
      ((((List.range TASKS.toNat).flatMap (fun m =>
          (List.range MAX_MW.toNat).map (Prod.mk m))).filter
        (fun mk => get2b MA mk.1 mk.2)).length : Int)
      = ((maintWindowsSpec TASKS MAX_MW MA MS ME).length : Int) := by
    rw [← hactive, List.length_map]
  have hsum :
      ((((List.range TASKS.toNat).flatMap (fun m =>
          (List.range MAX_MW.toNat).map (Prod.mk m))).filter
        (fun mk => get2b MA mk.1 mk.2)).map
          (fun mk => max 0 (get2 ME mk.1 mk.2 - get2 MS mk.1 mk.2))).sum
      = ((maintWindowsSpec TASKS MAX_MW MA MS ME).map (fun mwv => mwv.duration)).sum := by
    rw [← hactive, List.map_map]
    rfl
  rw [hactive, hlen, hsum]
  simp

/-- C3 (confirmed): for every maintenance-aware solve, the normalizer sets
`makespan = END` verbatim (never recomputed from operation ends), emits
exactly one MaintenanceWindow per cell `(m, k)` with `MAINT_ACTIVE[m][k]`
true — with `start = MAINT_START[m][k]`, `end = MAINT_END[m][k]`,
`duration = max 0 (end − start)` — and sets stats `maint_windows` to the
window count and `maint_time` to the sum of the durations; in particular
`MAINT_ACTIVE=[[true,false]]`, `MAINT_START=[[10,0]]`, `MAINT_END=[[25,0]]`
yields the single window `(10, 25, 15)` with `maint_windows=1`,
`maint_time=15`. -/
theorem C3_maint_normalization (JOBS TASKS MAX_MW : Int)
    (PT MS ME : List (List Int)) (MA : List (List Bool))
    (S : List (List Int)) (endVal : Int) :
    ((maintSolution JOBS TASKS MAX_MW PT MS ME MA S endVal).1.makespan = endVal
  ∧ (maintSolution JOBS TASKS MAX_MW PT MS ME MA S endVal).1.maintenanceWindows.getD []
      = maintWindowsSpec TASKS MAX_MW MA MS ME
  ∧ (maintSolution JOBS TASKS MAX_MW PT MS ME MA S endVal).1.stats
      = [("maint_windows", ((maintWindowsSpec TASKS MAX_MW MA MS ME).length : Int)),
         ("maint_time", ((maintWindowsSpec TASKS MAX_MW MA MS ME).map
            (fun mwv => mwv.duration)).sum)])
  ∧ maintSolution 1 1 2 [[3]] [[10, 0]] [[25, 0]] [[true, false]] [[0]] 3
      = ({ makespan := 3,
           machines := [{ id := "M1", name := "M1" }],
           operations := [{ jobId := "J1", machineId := "M1", opId := "J1-1",
                            start := 0, «end» := 3, duration := 3 }],
           maintenanceWindows := some [{ machineId := "M1", start := 10, «end» := 25,
                                         duration := 15 }],
           stats := [("maint_windows", 1), ("maint_time", 15)] },
         [("maint_windows", 1), ("maint_time", 15)]) := by
  refine ⟨⟨rfl, ?_, ?_⟩, by decide⟩
  · show (if (maintWindowsFold TASKS MAX_MW MA MS ME).2.2.isEmpty then none
      else some (maintWindowsFold TASKS MAX_MW MA MS ME).2.2).getD []
      = maintWindowsSpec TASKS MAX_MW MA MS ME
    rw [maintWindowsFold_eq]
    cases h : maintWindowsSpec TASKS MAX_MW MA MS ME with
    | nil => simp [h]
    | cons x xs => simp [h]
  · show [("maint_windows", (maintWindowsFold TASKS MAX_MW MA MS ME).1),
          ("maint_time", (maintWindowsFold TASKS MAX_MW MA MS ME).2.1)] = _
    rw [maintWindowsFold_eq]

/-! ### C1: infeasibility is a distinguishable outcome -/

/-- Every error raised by `_require_result_int` is a `RuntimeError` whose
message starts with `'R'` (`Result missing key ...` / `Result key ... is
not an int`). -/
theorem require_result_int_error_shape (r : EngineResult) (key : String) (e : PyErr)
    (h : require_result_int r key = .error e) :
    ∃ m, e = .runtimeError m ∧ m.data.head? = some 'R' := by
  unfold require_result_int at h
  cases hget : resGet r key with
  | none =>
    rw [hget] at h
    refine ⟨s!"Result missing key '{key}'", ?_, rfl⟩
    injection h with h'
    exact h'.symm
  | some v =>
    rw [hget] at h
    have h2 : (match pyInt v with
        | .ok n => (.ok n : Except PyErr Int)
        | .error _ =>
          .error (.runtimeError s!"Result key '{key}' is not an int")) = .error e := h
    cases hint : pyInt v with
    | ok n =>
      rw [hint] at h2
      cases h2
    | error e' =>
      rw [hint] at h2
      refine ⟨s!"Result key '{key}' is not an int", ?_, rfl⟩
      injection h2 with h'
      exact h'.symm

/-- Every error raised by `_require_result_2d` is a `RuntimeError` whose
message starts with `'R'`. -/
theorem require_result_2d_error_shape (r : EngineResult) (key : String)
    (rows cols : Int) (e : PyErr)
    (h : require_result_2d r key rows cols = .error e) :
    ∃ m, e = .runtimeError m ∧ m.data.head? = some 'R' := by
  unfold require_result_2d at h
  cases hget : resGet r key with
  | none =>
    rw [hget] at h
    refine ⟨s!"Result missing key '{key}'", ?_, rfl⟩
    injection h with h'
    exact h'.symm
  | some v =>
    rw [hget] at h
    have h2 : (match (if headIsList v then
        pyMapM (fun i => pyMapM (fun j => do pyInt (← pyIndex (← pyIndex v i) j))
          (List.range cols.toNat)) (List.range rows.toNat)
      else if isVList v && ((require_result_2d.lenOf v : Int) == rows * cols) then
        pyMapM (fun i => pyMapM (fun j => do pyInt (← pyIndex v (i * cols.toNat + j)))
          (List.range cols.toNat)) (List.range rows.toNat)
      else .error (.valueError s!"Expected flat list of length {rows * cols}")) with
        | .ok m => (.ok m : Except PyErr (List (List Int)))
        | .error _ => .error (.runtimeError
            s!"Result key '{key}' is not a 2D int matrix with shape [{rows}][{cols}]"))
        = .error e := h
    cases hatt : (if headIsList v then
        pyMapM (fun i => pyMapM (fun j => do pyInt (← pyIndex (← pyIndex v i) j))
          (List.range cols.toNat)) (List.range rows.toNat)
      else if isVList v && ((require_result_2d.lenOf v : Int) == rows * cols) then
        pyMapM (fun i => pyMapM (fun j => do pyInt (← pyIndex v (i * cols.toNat + j)))
          (List.range cols.toNat)) (List.range rows.toNat)
      else .error (.valueError s!"Expected flat list of length {rows * cols}")) with
    | ok m =>
      rw [hatt] at h2
      cases h2
    | error e' =>
      rw [hatt] at h2
      refine ⟨s!"Result key '{key}' is not a 2D int matrix with shape [{rows}][{cols}]",
        ?_, rfl⟩
      injection h2 with h'
      exact h'.symm

/-- The infeasibility message starts with `'M'`, so it can never collide
with a result-extraction error message. -/
theorem infeasibleMsg_head : infeasibleMsg.data.head? = some 'M' := rfl

/-- C1 (confirmed): when the engine reports no solution, both runners raise
exactly the fixed `RuntimeError` "MiniZinc did not produce a feasible
solution" — never a schedule — and that error value is distinct from every
error `_require_result_int` / `_require_result_2d` can raise for missing or
mis-shaped result variables (their messages start with `'R'`, the
infeasibility message with `'M'`). -/
theorem C1_infeasible_distinct (data : Dict) (orc : Oracle) (res : EngineResult)
    (jobs tasks : Int) (d : List (List Int)) (weights due_dates : List Int)
    (hj : require_int data "jobs" = .ok jobs)
    (ht : require_int data "tasks" = .ok tasks)
    (hd : require_2d_int data "d" jobs tasks = .ok d)
    (hw : require_1d_int data "weights" jobs = .ok weights)
    (hdd : require_1d_int data "due_dates" jobs = .ok due_dates)
    (hbm : orc.buildModel = .ok ())
    (hbi : orc.buildInstance = .ok ())
    (hs : orc.solve = .ok res)
    (hnosol : res.hasSolution = false) :
    run_jobshop_tardanza data orc
      = (.error (.runtimeError infeasibleMsg), [Ev.createTemp, Ev.unlinkTemp])
  ∧ (∀ p evs, run_jobshop_tardanza data orc ≠ (.ok p, evs))
  ∧ (∀ (r' : EngineResult) (key : String) (e : PyErr),
      require_result_int r' key = .error e → e ≠ .runtimeError infeasibleMsg)
  ∧ (∀ (r' : EngineResult) (key : String) (rows cols : Int) (e : PyErr),
      require_result_2d r' key rows cols = .error e → e ≠ .runtimeError infeasibleMsg) := by
  have hrun : run_jobshop_tardanza data orc
      = (.error (.runtimeError infeasibleMsg), [Ev.createTemp, Ev.unlinkTemp]) := by
    simp only [run_jobshop_tardanza, hj, ht, hd, hw, hdd, hbm, hbi, hs, hnosol,
      Bool.not_false, if_true, tryFinallyUnlink]
  refine ⟨hrun, ?_, ?_, ?_⟩
  · intro p evs hcontr
    rw [hrun] at hcontr
    cases hcontr
  · intro r' key e he hcontr
    obtain ⟨m, rfl, hm⟩ := require_result_int_error_shape r' key e he
    have : m = infeasibleMsg := by injection hcontr
    rw [this, infeasibleMsg_head] at hm
    cases hm
  · intro r' key rows cols e he hcontr
    obtain ⟨m, rfl, hm⟩ := require_result_2d_error_shape r' key rows cols e he
    have : m = infeasibleMsg := by injection hcontr
    rw [this, infeasibleMsg_head] at hm
    cases hm

/-! ### C8: the temp model file is released on every path -/

/-- The `finally` of both runners: the cleanup attempt happens exactly once
whether the protected body returned or raised. -/
theorem tryFinallyUnlink_events {α : Type} (body : Except PyErr α) :
    (tryFinallyUnlink body).2 = [Ev.unlinkTemp] := by
  cases body <;> rfl

/-- C8 (confirmed): in both runners, once the temporary modified model file
has been created (`_build_modified_model` succeeded), the cleanup unlinks
it exactly once on every exit path — normal return, infeasibility, engine
exception, instance-building exception, and extraction failure alike; and
when creation itself fails no unlink is attempted. -/
theorem C8_temp_file_released (data data2 : Dict) (orc orc2 : Oracle)
    (jobs tasks : Int) (d : List (List Int)) (weights due_dates : List Int)
    (JOBS TASKS MAX_MW : Int) (PT MS ME : List (List Int)) (MA : List (List Bool))
    (hj : require_int data "jobs" = .ok jobs)
    (ht : require_int data "tasks" = .ok tasks)
    (hd : require_2d_int data "d" jobs tasks = .ok d)
    (hw : require_1d_int data "weights" jobs = .ok weights)
    (hdd : require_1d_int data "due_dates" jobs = .ok due_dates)
    (hbm : orc.buildModel = .ok ())
    (hJ : require_int data2 "JOBS" = .ok JOBS)
    (hT : require_int data2 "TASKS" = .ok TASKS)
    (hPT : require_2d_int data2 "PROC_TIME" JOBS TASKS = .ok PT)
    (hMW : require_int data2 "MAX_MAINT_WINDOWS" = .ok MAX_MW)
    (hMS : require_2d_int data2 "MAINT_START" TASKS MAX_MW = .ok MS)
    (hME : require_2d_int data2 "MAINT_END" TASKS MAX_MW = .ok ME)
    (hMA : require_2d_bool data2 "MAINT_ACTIVE" TASKS MAX_MW = .ok MA)
    (hbm2 : orc2.buildModel = .ok ()) :
    ((run_jobshop_tardanza data orc).2 = [Ev.createTemp, Ev.unlinkTemp]
  ∧ (run_jobshop_mantenimiento data2 orc2).2 = [Ev.createTemp, Ev.unlinkTemp])
  ∧ (∀ (data' : Dict) (orc' : Oracle) (e : PyErr), orc'.buildModel = .error e →
      (run_jobshop_tardanza data' orc').2 = [Ev.createTemp, Ev.unlinkTemp]
        ∨ (run_jobshop_tardanza data' orc').2 = []) := by
  refine ⟨⟨?_, ?_⟩, ?_⟩
  · simp only [run_jobshop_tardanza, hj, ht, hd, hw, hdd, hbm]
    rw [tryFinallyUnlink_events]
  · simp only [run_jobshop_mantenimiento, hJ, hT, hPT, hMW, hMS, hME, hMA, hbm2]
    rw [tryFinallyUnlink_events]
  · intro data' orc' e hbm'
    cases h1 : require_int data' "jobs" with
    | error e1 => exact Or.inr (by simp [run_jobshop_tardanza, h1])
    | ok jobs' =>
    cases h2 : require_int data' "tasks" with
    | error e1 => exact Or.inr (by simp [run_jobshop_tardanza, h1, h2])
    | ok tasks' =>
    cases h3 : require_2d_int data' "d" jobs' tasks' with
    | error e1 => exact Or.inr (by simp [run_jobshop_tardanza, h1, h2, h3])
    | ok d' =>
    cases h4 : require_1d_int data' "weights" jobs' with
    | error e1 => exact Or.inr (by simp [run_jobshop_tardanza, h1, h2, h3, h4])
    | ok w' =>
    cases h5 : require_1d_int data' "due_dates" jobs' with
    | error e1 => exact Or.inr (by simp [run_jobshop_tardanza, h1, h2, h3, h4, h5])
    | ok dd' =>
    exact Or.inr (by simp [run_jobshop_tardanza, h1, h2, h3, h4, h5, hbm'])

/-- A concrete valid weighted-tardiness instance dict. -/
def dataTardanza : Dict :=
  [("jobs", .vInt 1), ("tasks", .vInt 1), ("d", .vList [.vList [.vInt 2]]),
   ("weights", .vList [.vInt 1]), ("due_dates", .vList [.vInt 0])]

/-- A concrete valid maintenance instance dict. -/
def dataMaint : Dict :=
  [("JOBS", .vInt 1), ("TASKS", .vInt 1), ("PROC_TIME", .vList [.vList [.vInt 2]]),
   ("MAX_MAINT_WINDOWS", .vInt 1), ("MAINT_START", .vList [.vList [.vInt 0]]),
   ("MAINT_END", .vList [.vList [.vInt 0]]),
   ("MAINT_ACTIVE", .vList [.vList [.vBool false]])]

/-- An engine run that completes without a solution. -/
def orcInfeasible : Oracle :=
  { buildModel := .ok (), buildInstance := .ok (),
    solve := .ok { hasSolution := false, vars := [] } }

/-- An engine run that raises during solving. -/
def orcCrash : Oracle :=
  { buildModel := .ok (), buildInstance := .ok (),
    solve := .error (.runtimeError "engine crashed") }

/-- C1 witness: on a concrete valid instance with an engine reporting no
solution, the runner returns exactly the infeasibility error (and the temp
file events), not a schedule. -/
theorem C1_infeasible_distinct_witness :
    require_int dataTardanza "jobs" = .ok 1
  ∧ orcInfeasible.solve = .ok { hasSolution := false, vars := [] }
  ∧ run_jobshop_tardanza dataTardanza orcInfeasible
      = (.error (.runtimeError infeasibleMsg), [Ev.createTemp, Ev.unlinkTemp]) := by
  refine ⟨rfl, rfl, ?_⟩
  exact (C1_infeasible_distinct dataTardanza orcInfeasible
    { hasSolution := false, vars := [] } 1 1 [[2]] [1] [0]
    rfl rfl rfl rfl rfl rfl rfl rfl rfl).1

/-- C8 witness: with a concrete valid instance and an engine crash during
solving, both runners still record exactly one unlink after the create. -/
theorem C8_temp_file_released_witness :
    orcCrash.buildModel = .ok ()
  ∧ (run_jobshop_tardanza dataTardanza orcCrash).2 = [Ev.createTemp, Ev.unlinkTemp]
  ∧ (run_jobshop_mantenimiento dataMaint orcCrash).2
      = [Ev.createTemp, Ev.unlinkTemp] := by
  have h := C8_temp_file_released dataTardanza dataMaint orcCrash orcCrash
    1 1 [[2]] [1] [0] 1 1 1 [[2]] [[0]] [[0]] [[false]]
    rfl rfl rfl rfl rfl rfl rfl rfl rfl rfl rfl rfl rfl rfl
  exact ⟨rfl, h.1.1, h.1.2⟩

/-! ### C10: the DZN-like parser is total and lenient -/

/-- C10 (confirmed): `_parse_dzn` is total — every input yields a mapping
(the embedding returns a `Dict` for every string, with no error path) — a
statement without `=` is silently skipped leaving the mapping unchanged,
a scalar value that parses as neither an array, a boolean nor an integer is
kept as a raw string under its key, and an array token that parses as
neither boolean nor integer is kept as a raw string token. -/
theorem C10_parse_dzn_lenient :
    (∀ (d : Dict) (stmt : String), stmt.data.contains '=' = false →
      parse_dzn_stmt d stmt = d)
  ∧ (∀ (d : Dict) (stmt k v : String), splitEq stmt = some (k, v) →
      matchArray2d (pyStrip v) = none → match1d (pyStrip v) = none →
      pyLower (pyStrip v) ≠ "true" → pyLower (pyStrip v) ≠ "false" →
      pyIntOfString (pyStrip v) = none →
      parse_dzn_stmt d stmt = dictSet d (pyStrip k) (.vStr (pyStrip v)))
  ∧ (∀ t : String, pyLower t ≠ "true" → pyLower t ≠ "false" →
      pyIntOfString t = none → classifyToken t = .vStr t) := by
  refine ⟨?_, ?_, ?_⟩
  · intro d stmt h
    have hnone : splitEq stmt = none := by
      unfold splitEq
      rw [h]
      simp
    unfold parse_dzn_stmt
    rw [hnone]
  · intro d stmt k v hsplit harr2d h1d htrue hfalse hint
    calc parse_dzn_stmt d stmt
        = (match matchArray2d (pyStrip v) with
          | some flat => dictSet d (pyStrip k) (.vList (split_array_values flat))
          | none =>
            match match1d (pyStrip v) with
            | some items => dictSet d (pyStrip k) (.vList (split_array_values items))
            | none =>
              if pyLower (pyStrip v) = "true" ∨ pyLower (pyStrip v) = "false" then
                dictSet d (pyStrip k) (.vBool (pyLower (pyStrip v) == "true"))
              else
                match pyIntOfString (pyStrip v) with
                | some n => dictSet d (pyStrip k) (.vInt n)
                | none => dictSet d (pyStrip k) (.vStr (pyStrip v))) := by
          unfold parse_dzn_stmt
          rw [hsplit]
      _ = dictSet d (pyStrip k) (.vStr (pyStrip v)) := by
          rw [harr2d, h1d, if_neg (by tauto), hint]
  · intro t htrue hfalse hint
    unfold classifyToken
    rw [if_neg (by tauto), hint]

set_option maxRecDepth 4000 in
/-- C10 witness: a statement without `=` leaves the mapping unchanged; an
unparsable scalar survives as a raw string; an unparsable array token
survives as a raw string; and a mixed document — comments, garbage
statements, arrays and raw scalars — parses to a mapping without error. -/
theorem C10_parse_dzn_lenient_witness :
    ("foo bar".data.contains '=') = false
  ∧ parse_dzn_stmt [("a", PyVal.vInt 1)] "foo bar" = [("a", PyVal.vInt 1)]
  ∧ splitEq "x = hello" = some ("x ", " hello")
  ∧ parse_dzn_stmt [] "x = hello" = [("x", PyVal.vStr "hello")]
  ∧ classifyToken "xyz" = PyVal.vStr "xyz"
  ∧ parse_dzn "n = 2;\n% a comment\nno equals sign here;\narr = [1, true, xyz];\nraw = foo"
      = [("n", PyVal.vInt 2),
         ("arr", PyVal.vList [PyVal.vInt 1, PyVal.vBool true, PyVal.vStr "xyz"]),
         ("raw", PyVal.vStr "foo")] := by
  refine ⟨rfl, ?_, rfl, ?_, ?_, rfl⟩
  · exact C10_parse_dzn_lenient.1 [("a", PyVal.vInt 1)] "foo bar" rfl
  · exact (C10_parse_dzn_lenient.2.1 [] "x = hello" "x " " hello" rfl rfl rfl
      (by decide) (by decide) rfl).trans rfl
  · exact C10_parse_dzn_lenient.2.2 "xyz" (by decide) (by decide) rfl

end JSSP
